import Mathlib

/-!
Verification of the task-scheduler core of this repository
(`scheduler/triggers.py`, `scheduler/persistence.py`, `scheduler/scheduler.py`).

Strings are shallowly embedded as `List Char` (Python `str` values over the
ASCII alphabet the scheduler actually uses); each Python helper the code relies
on (`str.strip`, `str.split`, `str.startswith`, slicing, `re.match` on the
concrete patterns appearing in the source, `datetime.fromisoformat`,
`datetime.isoformat`, `strftime`, SQLite text comparison) is given an explicit
executable model below, translated from the source semantics.

External collaborators (the APScheduler timer engine, the Task Registry
`agent.tasks`, the Executor `agent._execute_task`, the SQLite engine) are
modelled as explicit state plus environment records carrying the outcomes the
collaborator may produce (success of a write, the executor finishing or
raising, the engine-computed next run time).  All persistence operations in
`persistence.py` swallow their own exceptions (`try/except` around every
method body), which the model renders as a boolean "did the write take
effect" flag: the caller can never observe a storage failure.
-/

/-- Embed a Lean string literal as the `List Char` it denotes. -/
def str (s : String) : List Char := s.data

/-- The ASCII whitespace characters recognised by Python's `str.strip()` /
`str.split()` (the scheduler never feeds it non-ASCII whitespace). -/
def pyIsSpace (c : Char) : Bool :=
  c = ' ' || c = '\t' || c = '\n' || c = '\x0d' || c = '\x0b' || c = '\x0c'

/-- Python `str.strip()`: remove whitespace from both ends. -/
def pyStrip (l : List Char) : List Char :=
  ((l.dropWhile pyIsSpace).reverse.dropWhile pyIsSpace).reverse

/-- Helper for `pySplitWs`, accumulating the current word (reversed). -/
def splitWsAux : List Char → List Char → List (List Char)
  | [], acc => if acc.isEmpty then [] else [acc.reverse]
  | c :: cs, acc =>
    if pyIsSpace c then
      if acc.isEmpty then splitWsAux cs [] else acc.reverse :: splitWsAux cs []
    else splitWsAux cs (c :: acc)

/-- Python `str.split()` with no argument: split on whitespace runs,
discarding empty words. -/
def pySplitWs (l : List Char) : List (List Char) := splitWsAux l []

/-- Helper for `splitOnChar`. -/
def splitOnCharAux (sep : Char) : List Char → List Char → List (List Char)
  | [], acc => [acc.reverse]
  | c :: cs, acc =>
    if c = sep then acc.reverse :: splitOnCharAux sep cs []
    else splitOnCharAux sep cs (c :: acc)

/-- Python `str.split(sep)` for a one-character separator: keeps empty parts. -/
def splitOnChar (sep : Char) (l : List Char) : List (List Char) :=
  splitOnCharAux sep l []

/-- Python `str.split(sep, 1)`: `some (before, after)` when `sep` occurs,
`none` when it does not (in which case `split` returns a one-element list and
indexing `[1]` raises `IndexError`). -/
def splitOnce (sep : Char) : List Char → Option (List Char × List Char)
  | [] => none
  | c :: cs =>
    if c = sep then some ([], cs)
    else (splitOnce sep cs).map (fun p => (c :: p.1, p.2))

/-- Numeric value of a digit string, as computed by Python `int(...)`
(so leading zeros are normalised away). -/
def natOfDigits (l : List Char) : Nat :=
  l.foldl (fun acc c => acc * 10 + (c.toNat - '0'.toNat)) 0

/-- The decimal digit character for `n < 10`. -/
def digitChar (n : Nat) : Char := Char.ofNat ('0'.toNat + n)

/-- Fixed-width, zero-padded big-endian decimal rendering (the `%02d`/`%04d`/
`%06d` paddings used by `isoformat` and `strftime`). -/
def digitsBE (w n : Nat) : List Char :=
  (List.range w).map (fun i => digitChar (n / 10 ^ (w - 1 - i) % 10))

/-- Byte-wise lexicographic `<` on ASCII strings: SQLite's default BINARY
collation used when `task_runs.start_time` (TEXT) is compared with the TEXT
result of `datetime('now', ...)`. -/
def strLt : List Char → List Char → Bool
  | [], [] => false
  | [], _ :: _ => true
  | _ :: _, [] => false
  | a :: as, b :: bs => a.toNat < b.toNat || (a = b && strLt as bs)

/-! ## Datetimes

`datetime.datetime` values, with the civil-calendar arithmetic needed by
`timedelta` addition and SQLite's `datetime('now', '-N days')` modifier. -/

/-- A Python `datetime.datetime`: calendar fields plus an optional fixed UTC
offset in seconds (`tzinfo`); `tzSeconds = none` is a naive datetime. -/
structure DateTime where
  year : Nat
  month : Nat
  day : Nat
  hour : Nat
  minute : Nat
  second : Nat
  microsecond : Nat
  tzSeconds : Option Int
  deriving DecidableEq, Repr

/-- Gregorian leap year. -/
def isLeap (y : Nat) : Bool := (y % 4 = 0 && y % 100 ≠ 0) || y % 400 = 0

/-- Days in a month of a given year. -/
def daysInMonth (y m : Nat) : Nat :=
  if m = 2 then (if isLeap y then 29 else 28)
  else if m = 4 || m = 6 || m = 9 || m = 11 then 30
  else 31

/-- Days from 1970-01-01 to the given civil date (standard era-based
algorithm); defined for `y ≥ 1`. -/
def daysFromCivil (y m d : Nat) : Int :=
  let y1 := if m ≤ 2 then y - 1 else y
  let era := y1 / 400
  let yoe := y1 % 400
  let mp := if m > 2 then m - 3 else m + 9
  let doy := (153 * mp + 2) / 5 + d - 1
  let doe := yoe * 365 + yoe / 4 - yoe / 100 + doy
  (era * 146097 + doe : Int) - 719468

/-- Civil date from days since 1970-01-01 (inverse of `daysFromCivil`). -/
def civilFromDays (z : Int) : Nat × Nat × Nat :=
  let z' := z + 719468
  let era := (z'.fdiv 146097).toNat
  let doe := (z'.emod 146097).toNat
  let yoe := (doe - doe / 1460 + doe / 36524 - doe / 146096) / 365
  let doy := doe - (365 * yoe + yoe / 4 - yoe / 100)
  let mp := (5 * doy + 2) / 153
  let d := doy - (153 * mp + 2) / 5 + 1
  let m := if mp < 10 then mp + 3 else mp - 9
  let y := yoe + era * 400
  (if m ≤ 2 then y + 1 else y, m, d)

/-- Seconds from the epoch to a datetime's calendar fields (offset ignored:
this is the wall-clock key). -/
def toEpochSeconds (t : DateTime) : Int :=
  daysFromCivil t.year t.month t.day * 86400 + t.hour * 3600 + t.minute * 60 + t.second

/-- Naive datetime from seconds since the epoch. -/
def ofEpochSeconds (s : Int) : DateTime :=
  let days := s.fdiv 86400
  let rem := (s.emod 86400).toNat
  let ymd := civilFromDays days
  ⟨ymd.1, ymd.2.1, ymd.2.2, rem / 3600, rem % 3600 / 60, rem % 60, 0, none⟩

/-- `t + timedelta(seconds=k)`: whole-second shifts preserve the microsecond
field and the tzinfo. -/
def addSeconds (t : DateTime) (k : Int) : DateTime :=
  let r := ofEpochSeconds (toEpochSeconds t + k)
  { r with microsecond := t.microsecond, tzSeconds := t.tzSeconds }

/-- The comparison key of a naive datetime (Python compares the field tuple
lexicographically). -/
def dtTuple (t : DateTime) : List Nat :=
  [t.year, t.month, t.day, t.hour, t.minute, t.second, t.microsecond]

/-- Lexicographic `<` on equal-length `Nat` lists. -/
def listNatLt : List Nat → List Nat → Bool
  | [], [] => false
  | [], _ :: _ => true
  | _ :: _, [] => false
  | a :: as, b :: bs => a < b || (a = b && listNatLt as bs)

/-- `<` between two naive datetimes. -/
def naiveLt (a b : DateTime) : Bool := listNatLt (dtTuple a) (dtTuple b)

/-- `≤` between two naive datetimes. -/
def naiveLe (a b : DateTime) : Bool := naiveLt a b || dtTuple a = dtTuple b

/-- The instant key of an aware datetime, in microseconds UTC. -/
def awareKey (t : DateTime) (off : Int) : Int :=
  (toEpochSeconds t - off) * 1000000 + t.microsecond

/-- Python's `a <= b` on datetimes: comparing a naive with an aware datetime
raises `TypeError`, modelled as `none`. -/
def pyLe (a b : DateTime) : Option Bool :=
  match a.tzSeconds, b.tzSeconds with
  | none, none => some (naiveLe a b)
  | some ta, some tb => some (awareKey a ta ≤ awareKey b tb)
  | _, _ => none

/-! ### `datetime.fromisoformat`

The grammar accepted by CPython ≤ 3.10 (the interpreter generation this
repository targets): `YYYY-MM-DD[*HH[:MM[:SS[.fff[fff]]]][±HH:MM[:SS[.ffffff]]]]`
where `*` is an arbitrary single separator character, with the field-range
validation performed by the `datetime` constructor. -/

/-- Parse exactly two leading digits. -/
def parse2 : List Char → Option (Nat × List Char)
  | c1 :: c2 :: rest =>
    if c1.isDigit && c2.isDigit then some (natOfDigits [c1, c2], rest) else none
  | _ => none

/-- Parse exactly four leading digits. -/
def parse4 : List Char → Option (Nat × List Char)
  | c1 :: c2 :: c3 :: c4 :: rest =>
    if c1.isDigit && c2.isDigit && c3.isDigit && c4.isDigit then
      some (natOfDigits [c1, c2, c3, c4], rest)
    else none
  | _ => none

/-- Parse the time portion `HH[:MM[:SS[.fff[fff]]]]`, returning
`(hour, minute, second, microsecond, rest)`. -/
def parseIsoTime (l : List Char) : Option (Nat × Nat × Nat × Nat × List Char) :=
  match parse2 l with
  | none => none
  | some (hh, rest) =>
    match rest with
    | ':' :: r2 =>
      match parse2 r2 with
      | none => none
      | some (mm, rest2) =>
        match rest2 with
        | ':' :: r3 =>
          match parse2 r3 with
          | none => none
          | some (ss, rest3) =>
            match rest3 with
            | '.' :: r4 =>
              let fd := r4.takeWhile Char.isDigit
              let r5 := r4.dropWhile Char.isDigit
              if fd.length = 3 then some (hh, mm, ss, natOfDigits fd * 1000, r5)
              else if fd.length = 6 then some (hh, mm, ss, natOfDigits fd, r5)
              else none
            | _ => some (hh, mm, ss, 0, rest3)
        | _ => some (hh, mm, 0, 0, rest2)
    | _ => some (hh, 0, 0, 0, rest)

/-- Parse the timezone suffix `±HH:MM[:SS[.ffffff]]` (or nothing). -/
def parseIsoTz (l : List Char) : Option (Option Int) :=
  match l with
  | [] => some none
  | sign :: rest =>
    if sign = '+' || sign = '-' then
      match parseIsoTime rest with
      | some (hh, mm, ss, _, []) =>
        if hh ≤ 23 && mm ≤ 59 && ss ≤ 59 then
          let off : Int := hh * 3600 + mm * 60 + ss
          some (some (if sign = '-' then -off else off))
        else none
      | _ => none
    else none

/-- `datetime.fromisoformat` on the ≤ 3.10 grammar; `none` models
`ValueError`. -/
def fromisoformat (l : List Char) : Option DateTime :=
  match parse4 l with
  | none => none
  | some (y, r1) =>
    match r1 with
    | '-' :: r2 =>
      match parse2 r2 with
      | none => none
      | some (m, r3) =>
        match r3 with
        | '-' :: r4 =>
          match parse2 r4 with
          | none => none
          | some (d, r5) =>
            if 1 ≤ y && 1 ≤ m && m ≤ 12 && 1 ≤ d && d ≤ daysInMonth y m then
              match r5 with
              | [] => some ⟨y, m, d, 0, 0, 0, 0, none⟩
              | _ :: r6 =>
                match parseIsoTime r6 with
                | none => none
                | some (hh, mi, ss, us, r7) =>
                  if hh ≤ 23 && mi ≤ 59 && ss ≤ 59 then
                    match parseIsoTz r7 with
                    | none => none
                    | some tz => some ⟨y, m, d, hh, mi, ss, us, tz⟩
                  else none
            else none
        | _ => none
    | _ => none

/-- `datetime.isoformat()`: `YYYY-MM-DDTHH:MM:SS[.ffffff][±HH:MM[:SS]]`. -/
def isoformat (t : DateTime) : List Char :=
  digitsBE 4 t.year ++ ['-'] ++ digitsBE 2 t.month ++ ['-'] ++ digitsBE 2 t.day ++
  ['T'] ++ digitsBE 2 t.hour ++ [':'] ++ digitsBE 2 t.minute ++ [':'] ++
  digitsBE 2 t.second ++
  (if t.microsecond = 0 then [] else '.' :: digitsBE 6 t.microsecond) ++
  (match t.tzSeconds with
   | none => []
   | some off =>
     let a := off.natAbs
     (if off < 0 then ['-'] else ['+']) ++ digitsBE 2 (a / 3600) ++ [':'] ++
     digitsBE 2 (a % 3600 / 60) ++
     (if a % 60 = 0 then [] else ':' :: digitsBE 2 (a % 60)))

/-- `strftime('%Y-%m-%d %H:%M:%S')`, which is also the TEXT produced by
SQLite's `datetime(...)`: space separator, no fractional seconds. -/
def formatYmdHms (t : DateTime) : List Char :=
  digitsBE 4 t.year ++ ['-'] ++ digitsBE 2 t.month ++ ['-'] ++ digitsBE 2 t.day ++
  [' '] ++ digitsBE 2 t.hour ++ [':'] ++ digitsBE 2 t.minute ++ [':'] ++
  digitsBE 2 t.second

example : fromisoformat (str "2025-06-01T00:00:00") =
    some ⟨2025, 6, 1, 0, 0, 0, 0, none⟩ := by decide

example : fromisoformat (str "2020-01-01") = some ⟨2020, 1, 1, 0, 0, 0, 0, none⟩ := by
  decide

example : fromisoformat (str "2020-13-01") = none := by decide

example : fromisoformat (str "2024-02-29") = some ⟨2024, 2, 29, 0, 0, 0, 0, none⟩ := by
  decide

example : fromisoformat (str "2023-02-29") = none := by decide

example : fromisoformat (str "2025-01-02T03:04:05.123456") =
    some ⟨2025, 1, 2, 3, 4, 5, 123456, none⟩ := by decide

example : fromisoformat (str "2025-01-02T03:04:05+05:30") =
    some ⟨2025, 1, 2, 3, 4, 5, 0, some 19800⟩ := by decide

example : addSeconds ⟨2025, 9, 12, 10, 0, 0, 0, none⟩ (-(30 * 86400)) =
    ⟨2025, 8, 13, 10, 0, 0, 0, none⟩ := by decide

example : isoformat ⟨2025, 8, 13, 9, 0, 0, 0, none⟩ = str "2025-08-13T09:00:00" := by
  decide

example : formatYmdHms ⟨2025, 8, 13, 10, 0, 0, 0, none⟩ = str "2025-08-13 10:00:00" := by
  decide

/-! ## TriggerParser (`scheduler/triggers.py`) -/

namespace TriggerParser

/-- The trigger descriptor produced by `TriggerParser.parse`: APScheduler's
`CronTrigger` / `IntervalTrigger` / `DateTrigger` restricted to the data this
code puts into them. -/
inductive Trigger where
  | cron (minute hour day month day_of_week : List Char)
  | interval (value : Nat) (unit : Char) (start_date : Option DateTime)
  | date (run_date : DateTime)
  deriving DecidableEq, Repr

/-- The regex `^(\d+)([smhd])$` used by `_parse_interval`, `_parse_relative`
and `get_human_readable`: a maximal nonempty digit run followed by exactly one
unit letter. -/
def matchNumUnit (l : List Char) : Option (Nat × Char) :=
  let ds := l.takeWhile Char.isDigit
  match l.dropWhile Char.isDigit with
  | [u] =>
    if ds ≠ [] && (u = 's' || u = 'm' || u = 'h' || u = 'd') then
      some (natOfDigits ds, u)
    else none
  | _ => none

/-- The per-field numeral grammar of `_validate_cron`'s regexes: field 0
minute `[0-5]?\d`, field 1 hour `1?\d|2[0-3]`, field 2 day-of-month
`[1-9]|[12]\d|3[01]`, field 3 month `[1-9]|1[0-2]`, field 4 day-of-week
`[0-6]`. -/
def numOk (i : Nat) (l : List Char) : Bool :=
  match i, l with
  | 0, [c] => c.isDigit
  | 0, [c1, c2] => '0' ≤ c1 && c1 ≤ '5' && c2.isDigit
  | 1, [c] => c.isDigit
  | 1, [c1, c2] => (c1 = '1' && c2.isDigit) || (c1 = '2' && '0' ≤ c2 && c2 ≤ '3')
  | 2, [c] => '1' ≤ c && c ≤ '9'
  | 2, [c1, c2] => ((c1 = '1' || c1 = '2') && c2.isDigit) || (c1 = '3' && (c2 = '0' || c2 = '1'))
  | 3, [c] => '1' ≤ c && c ≤ '9'
  | 3, [c1, c2] => c1 = '1' && '0' ≤ c2 && c2 ≤ '2'
  | 4, [c] => '0' ≤ c && c ≤ '6'
  | _, _ => false

/-- A comma-list item: a single value or a range `a-b`. -/
def itemOk (i : Nat) (part : List Char) : Bool :=
  match splitOnChar '-' part with
  | [a] => numOk i a
  | [a, b] => numOk i a && numOk i b
  | _ => false

/-- One cron field of `_validate_cron`: `*`, a step `*/n`, or a comma list of
values/ranges. -/
def fieldOk (i : Nat) (f : List Char) : Bool :=
  f = ['*'] ||
  (match f with
   | '*' :: '/' :: ds => !ds.isEmpty && ds.all Char.isDigit
   | _ => false) ||
  (splitOnChar ',' f).all (itemOk i)

/-- `TriggerParser._validate_cron`: split on whitespace, require exactly five
fields, each matching its field-specific pattern. -/
def _validate_cron (cron_expr : List Char) : Bool :=
  let parts := pySplitWs cron_expr
  parts.length = 5 && (parts.enum.all fun p => fieldOk p.1 p.2)

/-- APScheduler's per-field value range `MAX_VALUES[f] - MIN_VALUES[f]`, used
by `AllExpression.validate_range` for the step bound: minute 0–59, hour 0–23,
day 1–31, month 1–12, day_of_week 0–6. -/
def cronRange (i : Nat) : Nat :=
  if i = 0 then 59 else if i = 1 then 23 else if i = 2 then 30
  else if i = 3 then 11 else 6

/-- The raise conditions of `CronTrigger` field compilation on a
`_validate_cron`-approved field.  The regexes confine each numeric endpoint
to the field's `[MIN, MAX]` interval, so of APScheduler's `validate_range`
checks only two can still fire: a `*/step` whose step is `0` (`AllExpression:
"Increment must be higher than 0"`) or exceeds the field's value range, and a
range item `a-b` with `a > b` (`RangeExpression: first higher than last`).
Both surface as `ValueError` from `from_crontab`, caught to `None` in
`_parse_cron`. -/
def fieldSemOk (i : Nat) (f : List Char) : Bool :=
  match f with
  | '*' :: '/' :: ds =>
    let k := natOfDigits ds
    decide (1 ≤ k) && decide (k ≤ cronRange i)
  | _ =>
    (splitOnChar ',' f).all (fun item =>
      match splitOnChar '-' item with
      | [a, b] => decide (natOfDigits a ≤ natOfDigits b)
      | _ => true)

/-- All five fields pass `CronTrigger`'s semantic validation. -/
def cronSemOk (parts : List (List Char)) : Bool :=
  parts.enum.all fun p => fieldSemOk p.1 p.2

/-- `TriggerParser._parse_cron`.  `CronTrigger.from_crontab` (external
APScheduler code) packages the five validated fields but re-validates them
semantically (`validate_range`): its `ValueError` on a zero/oversized `*/step`
or an inverted range `a-b` is caught at `triggers.py:80-84` and becomes
`None`, modelled by the `cronSemOk` test. -/
def _parse_cron (schedule_spec : List Char) : Option Trigger :=
  let cron_expr := pyStrip (schedule_spec.drop 5)
  if _validate_cron cron_expr && cronSemOk (pySplitWs cron_expr) then
    match pySplitWs cron_expr with
    | [m, h, dom, mon, dow] => some (.cron m h dom mon dow)
    | _ => none
  else none

/-- Seconds per interval unit. -/
def unitSeconds (u : Char) : Nat :=
  if u = 's' then 1 else if u = 'm' then 60 else if u = 'h' then 3600
  else if u = 'd' then 86400 else 0

/-- Whether `timedelta(**{unit: value})` is representable: CPython normalizes
to whole days and raises `OverflowError` when they exceed `999999999`
(`timedelta.max` is `999999999 days, 23:59:59.999999`). -/
def timedeltaOk (secs : Nat) : Bool := secs / 86400 ≤ 999999999

/-- `TriggerParser._parse_interval`.  `IntervalTrigger` builds a `timedelta`
from the count, so an over-large count raises `OverflowError`, caught at
`triggers.py:154-157` and turned into `None`. -/
def _parse_interval (schedule_spec : List Char) (start_time : Option DateTime) :
    Option Trigger :=
  let interval_spec := pyStrip (schedule_spec.drop 6)
  match matchNumUnit interval_spec with
  | none => none
  | some (v, u) =>
    if v = 0 then none
    else if timedeltaOk (v * unitSeconds u) then some (.interval v u start_time)
    else none

/-- `TriggerParser._parse_date`.  The guarded `run_date <= datetime.now()`
check logs a warning only, but comparing an offset-aware `run_date` with the
naive `now` raises `TypeError`, which the enclosing handler turns into
`None`. -/
def _parse_date (schedule_spec : List Char) (now : DateTime) : Option Trigger :=
  let date_str := pyStrip (schedule_spec.drop 3)
  match fromisoformat date_str with
  | none => none
  | some run_date =>
    match pyLe run_date now with
    | none => none
    | some _ => some (.date run_date)

/-- `TriggerParser._parse_relative`: `run_date = now + timedelta(...)`.  Both
the `timedelta` construction (count too large) and the datetime addition
(result past `datetime.max`, year 9999) raise `OverflowError`, caught at
`triggers.py:221-223` and turned into `None`. -/
def _parse_relative (schedule_spec : List Char) (now : DateTime) : Option Trigger :=
  let relative_spec := pyStrip (schedule_spec.drop 3)
  match matchNumUnit relative_spec with
  | none => none
  | some (v, u) =>
    if v = 0 then none
    else if timedeltaOk (v * unitSeconds u) &&
        decide ((addSeconds now ((v * unitSeconds u : Nat) : Int)).year ≤ 9999) then
      some (.date (addSeconds now ((v * unitSeconds u : Nat) : Int)))
    else none

/-- `TriggerParser.parse`: dispatch on the spec prefix; anything else (or any
error in a branch) is `None`. -/
def parse (schedule_spec : List Char) (start_time : Option DateTime) (now : DateTime) :
    Option Trigger :=
  if (str "cron:").isPrefixOf schedule_spec then _parse_cron schedule_spec
  else if (str "every ").isPrefixOf schedule_spec then
    _parse_interval schedule_spec start_time
  else if (str "at:").isPrefixOf schedule_spec then _parse_date schedule_spec now
  else if (str "in ").isPrefixOf schedule_spec then _parse_relative schedule_spec now
  else none

/-- The `unit_names` table of `get_human_readable`, with English
pluralization.  (The unit always comes from `matchNumUnit`, so the lookup
never faults; the default branch is unreachable.) -/
def unitName (value : Nat) (unit : Char) : List Char :=
  if unit = 's' then str (if value = 1 then "second" else "seconds")
  else if unit = 'm' then str (if value = 1 then "minute" else "minutes")
  else if unit = 'h' then str (if value = 1 then "hour" else "hours")
  else if unit = 'd' then str (if value = 1 then "day" else "days")
  else []

/-- `TriggerParser.get_human_readable`: best-effort formatter; unrecognized
specs are echoed verbatim and no branch can raise. -/
def get_human_readable (schedule_spec : List Char) : List Char :=
  if (str "cron:").isPrefixOf schedule_spec then
    str "Cron schedule: " ++ pyStrip (schedule_spec.drop 5)
  else if (str "every ").isPrefixOf schedule_spec then
    let interval_spec := pyStrip (schedule_spec.drop 6)
    match matchNumUnit interval_spec with
    | none => schedule_spec
    | some (v, u) => str "Every " ++ (Nat.repr v).data ++ [' '] ++ unitName v u
  else if (str "at:").isPrefixOf schedule_spec then
    let date_str := pyStrip (schedule_spec.drop 3)
    match fromisoformat date_str with
    | some run_date => str "At " ++ formatYmdHms run_date
    | none => str "At " ++ date_str
  else if (str "in ").isPrefixOf schedule_spec then
    let relative_spec := pyStrip (schedule_spec.drop 3)
    match matchNumUnit relative_spec with
    | none => schedule_spec
    | some (v, u) => str "In " ++ (Nat.repr v).data ++ [' '] ++ unitName v u
  else schedule_spec

/-- `TriggerParser.get_trigger_info`, as key/value pairs.  (For cron triggers
APScheduler also reports defaulted fields such as `year` and `second`; only
the five fields this code sets are modelled, which no caller in the scheduler
inspects further.) -/
def get_trigger_info (t : Trigger) : List (List Char × List Char) :=
  match t with
  | .cron m h dom mon dow =>
    [(str "type", str "cron"), (str "minute", m), (str "hour", h),
     (str "day", dom), (str "month", mon), (str "day_of_week", dow)]
  | .interval v u _ =>
    [(str "type", str "interval"), (str "seconds", (Nat.repr (v * unitSeconds u)).data)]
  | .date d => [(str "type", str "date"), (str "run_date", isoformat d)]

end TriggerParser

example : TriggerParser._validate_cron (str "0 9 * * 1-5") = true := by decide

example : TriggerParser._validate_cron (str "0 9 * *") = false := by decide

example : TriggerParser._validate_cron (str "60 9 * * 1-5") = false := by decide

example : TriggerParser.parse (str "every 30m") none ⟨2025, 1, 1, 0, 0, 0, 0, none⟩ =
    some (.interval 30 'm' none) := by decide

example : TriggerParser.parse (str "bogus") none ⟨2025, 1, 1, 0, 0, 0, 0, none⟩ =
    none := by decide

example : TriggerParser.parse (str "every 0s") none ⟨2025, 1, 1, 0, 0, 0, 0, none⟩ =
    none := by decide

example : TriggerParser.parse (str "at:2020-01-01T00:00:00") none
    ⟨2025, 1, 1, 0, 0, 0, 0, none⟩ = some (.date ⟨2020, 1, 1, 0, 0, 0, 0, none⟩) := by
  decide

example : TriggerParser.parse (str "in 2h") none ⟨2025, 1, 1, 0, 0, 0, 0, none⟩ =
    some (.date ⟨2025, 1, 1, 2, 0, 0, 0, none⟩) := by decide

/-! Fields passing `_validate_cron`'s regexes can still be rejected by
`CronTrigger`'s own `validate_range`: inverted ranges and zero/oversized
steps raise `ValueError` inside `from_crontab`, which `_parse_cron` catches
to `None`. -/

example : TriggerParser._validate_cron (str "5-2 * * * *") = true := by decide

example : TriggerParser.parse (str "cron:5-2 * * * *") none
    ⟨2025, 1, 1, 0, 0, 0, 0, none⟩ = none := by decide

example : TriggerParser._validate_cron (str "*/0 * * * *") = true := by decide

example : TriggerParser.parse (str "cron:*/0 * * * *") none
    ⟨2025, 1, 1, 0, 0, 0, 0, none⟩ = none := by decide

example : TriggerParser.parse (str "cron:*/60 * * * *") none
    ⟨2025, 1, 1, 0, 0, 0, 0, none⟩ = none := by decide

example : TriggerParser.parse (str "cron:*/5 * * * 1-5") none
    ⟨2025, 1, 1, 0, 0, 0, 0, none⟩ =
    some (.cron (str "*/5") (str "*") (str "*") (str "*") (str "1-5")) := by decide

/-! Over-large counts overflow `timedelta` / `datetime` and are caught to
`None`; `timedelta.max` is 999999999 days. -/

example : TriggerParser.parse (str "every 1000000000000d") none
    ⟨2025, 1, 1, 0, 0, 0, 0, none⟩ = none := by decide

example : TriggerParser.parse (str "every 999999999d") none
    ⟨2025, 1, 1, 0, 0, 0, 0, none⟩ = some (.interval 999999999 'd' none) := by decide

example : TriggerParser.parse (str "in 9999999d") none
    ⟨2025, 1, 1, 0, 0, 0, 0, none⟩ = none := by decide

example : (TriggerParser.parse (str "in 10000d") none
    ⟨2025, 1, 1, 0, 0, 0, 0, none⟩).isSome = true := by decide

example : TriggerParser.get_human_readable (str "every 1h") = str "Every 1 hour" := by
  decide

example : TriggerParser.get_human_readable (str "every 2h") = str "Every 2 hours" := by
  decide

example : TriggerParser.get_human_readable (str "cron:0 9 * * 1-5") =
    str "Cron schedule: 0 9 * * 1-5" := by decide

/-! ## PersistenceStore (`scheduler/persistence.py`)

Every method wraps its body in `try/except` and only logs on failure, so a
storage error is invisible to the caller; writes therefore carry an `ok` flag
saying whether the SQLite operation took effect. -/

/-- A row of the `schedules` table (UNIQUE on `task_id`).  The
`created_at` column (SQLite-defaulted, never read by the scheduler) is not
modelled. -/
structure ScheduleRow where
  task_id : List Char
  job_id : List Char
  schedule_type : List Char
  schedule_value : List Char
  next_run_time : Option (List Char)
  deriving DecidableEq, Repr

/-- A row of the append-only `task_runs` table. -/
structure RunRow where
  task_id : List Char
  status : List Char
  start_time : Option (List Char)
  end_time : Option (List Char)
  error : Option (List Char)
  deriving DecidableEq, Repr

/-- The SQLite database state. -/
structure PState where
  schedules : List ScheduleRow
  task_runs : List RunRow
  deriving DecidableEq, Repr

namespace SchedulerPersistence

/-- `save_schedule`: atomic upsert by `task_id` (UPDATE when a row exists,
INSERT otherwise); `next_run_time` is stored as its isoformat string. -/
def save_schedule (ok : Bool) (task_id job_id schedule_type schedule_value : List Char)
    (next_run_time : Option DateTime) (p : PState) : PState :=
  if !ok then p else
  let nstr := next_run_time.map isoformat
  if p.schedules.any (fun r => r.task_id = task_id) then
    { p with schedules := p.schedules.map (fun r =>
        if r.task_id = task_id then
          { r with job_id := job_id, schedule_type := schedule_type,
                   schedule_value := schedule_value, next_run_time := nstr }
        else r) }
  else
    { p with schedules :=
        p.schedules ++ [⟨task_id, job_id, schedule_type, schedule_value, nstr⟩] }

/-- `delete_schedule`: no-op when the row is absent. -/
def delete_schedule (ok : Bool) (task_id : List Char) (p : PState) : PState :=
  if ok then { p with schedules := p.schedules.filter (fun r => r.task_id ≠ task_id) }
  else p

/-- `get_schedule`. -/
def get_schedule (task_id : List Char) (p : PState) : Option ScheduleRow :=
  p.schedules.find? (fun r => r.task_id = task_id)

/-- `get_all_schedules`. -/
def get_all_schedules (p : PState) : List ScheduleRow := p.schedules

/-- `log_task_run`: pure insert, datetimes stored as isoformat strings. -/
def log_task_run (ok : Bool) (task_id status : List Char) (start_time : DateTime)
    (end_time : Option DateTime) (error : Option (List Char)) (p : PState) : PState :=
  if ok then
    { p with task_runs := p.task_runs ++
        [⟨task_id, status, some (isoformat start_time), end_time.map isoformat, error⟩] }
  else p

/-- `cleanup_old_runs`: `DELETE FROM task_runs WHERE start_time <
datetime('now', '-{days} days')`.  SQLite compares the stored TEXT
`start_time` byte-wise against its own `YYYY-MM-DD HH:MM:SS` rendering of the
cutoff; a NULL `start_time` never satisfies the predicate. -/
def cleanup_old_runs (days : Nat) (now : DateTime) (p : PState) : PState :=
  let cutoff := formatYmdHms (addSeconds now (-(days * 86400 : Nat) : Int))
  { p with task_runs := p.task_runs.filter (fun r =>
      match r.start_time with
      | none => true
      | some st => !strLt st cutoff) }

/-! ### LegacyMigrator (`_migrate_from_json`) -/

/-- The legacy JSON trigger object: optional fields as read by
`trigger.get(...)` / `field in trigger`.  The numeric `seconds` value is
modelled as an integer. -/
structure LegacyTrigger where
  type : Option (List Char)
  minute : Option (List Char)
  hour : Option (List Char)
  day : Option (List Char)
  month : Option (List Char)
  day_of_week : Option (List Char)
  seconds : Option Int
  run_date : Option (List Char)
  deriving DecidableEq, Repr

/-- One legacy JSON entry, keyed by task id in the legacy file. -/
structure LegacyEntry where
  trigger : Option LegacyTrigger
  job_id : Option (List Char)
  next_run_time : Option (List Char)
  deriving DecidableEq, Repr

/-- The filesystem/DB state `_migrate_from_json` operates on: the legacy
`scheduled_tasks.json` (parsed), the renamed `.json.migrated` file, and the
`schedules` table. -/
structure MigState where
  json_file : Option (List (List Char × LegacyEntry))
  migrated_file : Option (List (List Char × LegacyEntry))
  schedules : List ScheduleRow
  deriving DecidableEq, Repr

/-- The legacy trigger with no fields (`schedule.get("trigger", {})`). -/
def emptyLegacyTrigger : LegacyTrigger := ⟨none, none, none, none, none, none, none, none⟩

/-- Reconstruct a `schedule_value` string from a legacy trigger shape;
unrecognized shapes map to the literal `"unknown"`. -/
def legacyScheduleValue (schedule_type : List Char) (trigger : LegacyTrigger) :
    List Char :=
  if schedule_type = str "cron" then
    let cron_parts :=
      [trigger.minute, trigger.hour, trigger.day, trigger.month,
       trigger.day_of_week].filterMap id
    if cron_parts.length = 5 then str "cron:" ++ List.intercalate [' '] cron_parts
    else str "unknown"
  else if schedule_type = str "interval" then
    let seconds := trigger.seconds.getD 0
    if seconds > 0 then
      let s := seconds.toNat
      if s < 60 then str "every " ++ (Nat.repr s).data ++ ['s']
      else if s < 3600 then str "every " ++ (Nat.repr (s / 60)).data ++ ['m']
      else if s < 86400 then str "every " ++ (Nat.repr (s / 3600)).data ++ ['h']
      else str "every " ++ (Nat.repr (s / 86400)).data ++ ['d']
    else str "unknown"
  else if schedule_type = str "date" then
    match trigger.run_date with
    | some rd => if rd.isEmpty then str "unknown" else str "at:" ++ rd
    | none => str "unknown"
  else str "unknown"

/-- Process one legacy entry: skip when a `schedules` row for that task_id
already exists (the idempotence check), else INSERT. -/
def migrateEntry (task_id : List Char) (e : LegacyEntry) (acc : List ScheduleRow) :
    List ScheduleRow :=
  if acc.any (fun r => r.task_id = task_id) then acc
  else
    let trigger := e.trigger.getD emptyLegacyTrigger
    let schedule_type := trigger.type.getD (str "unknown")
    let schedule_value := legacyScheduleValue schedule_type trigger
    acc ++ [⟨task_id, e.job_id.getD [], schedule_type, schedule_value, e.next_run_time⟩]

/-- Fold `migrateEntry` over the legacy entries in file order. -/
def migrateLoop : List (List Char × LegacyEntry) → List ScheduleRow → List ScheduleRow
  | [], acc => acc
  | (tid, e) :: rest, acc => migrateLoop rest (migrateEntry tid e acc)

/-- `_migrate_from_json`: return immediately when the legacy file is absent or
parses to an empty mapping (in which case it is left in place); otherwise
migrate every entry and rename the file to `scheduled_tasks.json.migrated`. -/
def _migrate_from_json (m : MigState) : MigState :=
  match m.json_file with
  | none => m
  | some entries =>
    if entries.isEmpty then m
    else
      { json_file := none, migrated_file := some entries,
        schedules := migrateLoop entries m.schedules }

end SchedulerPersistence

example :
    SchedulerPersistence.legacyScheduleValue (str "interval")
      { SchedulerPersistence.emptyLegacyTrigger with seconds := some 1800 } =
    str "every 30m" := by decide

example :
    SchedulerPersistence.legacyScheduleValue (str "weird")
      SchedulerPersistence.emptyLegacyTrigger = str "unknown" := by decide

example :
    SchedulerPersistence.cleanup_old_runs 30 ⟨2025, 9, 12, 10, 0, 0, 0, none⟩
      ⟨[], [⟨str "t", str "running", some (str "2025-08-13T09:00:00"), none, none⟩]⟩ =
    ⟨[], [⟨str "t", str "running", some (str "2025-08-13T09:00:00"), none, none⟩]⟩ := by
  decide

example :
    SchedulerPersistence.cleanup_old_runs 30 ⟨2025, 9, 12, 10, 0, 0, 0, none⟩
      ⟨[], [⟨str "t", str "running", some (str "2025-08-12T09:00:00"), none, none⟩]⟩ =
    ⟨[], []⟩ := by decide

/-! ## SchedulerEngine (`scheduler/scheduler.py`) -/

/-- The mutable fields of a Task Registry entry (`agent.tasks[task_id]`) that
the scheduler reads or writes. -/
structure TaskRec where
  status : List Char
  progress : Nat
  result : Option (List Char)
  error : Option (List Char)
  schedule : Option (List Char)
  next_run_time : Option DateTime
  updated_at : Option DateTime
  deriving DecidableEq, Repr

/-- A job registered in the APScheduler job table: its id, the task it was
bound to (the cleanup job has none), its trigger, and the engine-computed
next run time. -/
structure Job where
  id : List Char
  task : Option (List Char)
  trigger : TriggerParser.Trigger
  next_run_time : Option DateTime
  deriving DecidableEq, Repr

/-- Events delivered to listeners by `_notify_listeners` (each listener's own
exceptions are caught, so notification always succeeds and is modelled as
appending the event). -/
inductive SchedEvent where
  | schedule_update (task_id job_id schedule_type schedule_value human_readable : List Char)
      (next_run_time : Option (List Char))
  | schedule_removed (task_id : List Char)
  | task_started (task_id start_time : List Char)
  | task_finished (task_id status start_time end_time : List Char)
      (error : Option (List Char))
  | task_error (task_id error end_time : List Char)
  deriving DecidableEq, Repr

/-- Association-list lookup by key. -/
def lookupA {α : Type} (l : List (List Char × α)) (k : List Char) : Option α :=
  (l.find? (fun p => p.1 = k)).map (fun p => p.2)

/-- Association-list upsert by key. -/
def upsertA {α : Type} (l : List (List Char × α)) (k : List Char) (v : α) :
    List (List Char × α) :=
  if l.any (fun p => p.1 = k) then l.map (fun p => if p.1 = k then (k, v) else p)
  else l ++ [(k, v)]

/-- Association-list key removal (`del`). -/
def eraseA {α : Type} (l : List (List Char × α)) (k : List Char) :
    List (List Char × α) :=
  l.filter (fun p => p.1 ≠ k)

/-- Association-list in-place field update of an existing entry. -/
def updateA {α : Type} (l : List (List Char × α)) (k : List Char) (f : α → α) :
    List (List Char × α) :=
  l.map (fun p => if p.1 = k then (p.1, f p.2) else p)

/-- The whole scheduler state: the external Task Registry, the engine's three
shared structures, the APScheduler job table, the SQLite store, and the
stream of listener events. -/
structure SchedState where
  tasks : List (List Char × TaskRec)
  scheduled_tasks : List (List Char × List Char)
  running_tasks : List (List Char)
  jobs : List Job
  persistence : PState
  events : List SchedEvent
  deriving DecidableEq, Repr

namespace TaskScheduler

/-- The outcomes of the external collaborators during one `schedule_task`
call: the `datetime.now().timestamp()` string used in the generated job id,
whether `scheduler.add_job` succeeds, whether reading `job.next_run_time`
succeeds (an APScheduler `Job` added while the engine is not yet running —
the `_load_schedules` path — is pending and has no `next_run_time` attribute,
so the read raises `AttributeError`), the next run time APScheduler computes
when the read succeeds, and whether the SQLite write inside `save_schedule`
takes effect. -/
structure SchedEnv where
  ts : List Char
  add_job_ok : Bool
  nrt_ok : Bool
  job_next_run : Option DateTime
  save_ok : Bool
  deriving DecidableEq, Repr

/-- The `schedule_type` string derived from the trigger's class. -/
def scheduleTypeOf : TriggerParser.Trigger → List Char
  | .cron _ _ _ _ _ => str "cron"
  | .interval _ _ _ => str "interval"
  | .date _ => str "date"

/-- `TaskScheduler.schedule_task`.  An exception from `add_job` is caught by
the enclosing handler and yields `False` with nothing yet mutated.  The next
raising point is the `job.next_run_time` read in the `save_schedule` call
arguments (scheduler.py:158): on a pending job it raises `AttributeError`
*after* the job was registered and `scheduled_tasks[task_id]` recorded, so
the handler returns `False` with those two mutations kept and the registry,
persistence and listeners untouched.  When that read succeeds every later
step either cannot raise or swallows its own errors, so the call runs to
completion and returns `True`. -/
def schedule_task (env : SchedEnv) (now : DateTime) (task_id schedule_spec : List Char)
    (start_time : Option DateTime) (s : SchedState) : Bool × SchedState :=
  match lookupA s.tasks task_id with
  | none => (false, s)
  | some _ =>
    match TriggerParser.parse schedule_spec start_time now with
    | none => (false, s)
    | some trigger =>
      if !env.add_job_ok then (false, s)
      else
        let schedule_type := scheduleTypeOf trigger
        let job_id := str "task_" ++ task_id ++ ['_'] ++ env.ts
        let job : Job := ⟨job_id, some task_id, trigger, env.job_next_run⟩
        let jobs' := s.jobs.filter (fun j => j.id ≠ job_id) ++ [job]
        let st' := upsertA s.scheduled_tasks task_id job_id
        if !env.nrt_ok then
          (false, { s with
                    scheduled_tasks := st'
                    jobs := jobs' })
        else
          let human := TriggerParser.get_human_readable schedule_spec
          let p' := SchedulerPersistence.save_schedule env.save_ok task_id job_id
            schedule_type schedule_spec env.job_next_run s.persistence
          let tasks' := updateA s.tasks task_id (fun t =>
            { t with schedule := some human, next_run_time := env.job_next_run })
          let ev := SchedEvent.schedule_update task_id job_id schedule_type schedule_spec
            human (env.job_next_run.map isoformat)
          (true, { s with
                   tasks := tasks'
                   scheduled_tasks := st'
                   jobs := jobs'
                   persistence := p'
                   events := s.events ++ [ev] })

/-- The collaborator outcome of one `cancel_task` call: whether the SQLite
DELETE inside `delete_schedule` takes effect. -/
structure CancelEnv where
  delete_ok : Bool
  deriving DecidableEq, Repr

/-- `TaskScheduler.cancel_task`.  `remove_job` raising `JobLookupError` for an
already-gone job is caught and logged as a warning, after which the method
continues; removal from the job table is therefore a plain filter. -/
def cancel_task (env : CancelEnv) (task_id : List Char) (s : SchedState) :
    Bool × SchedState :=
  match lookupA s.scheduled_tasks task_id with
  | none => (false, s)
  | some job_id =>
    let jobs' := s.jobs.filter (fun j => j.id ≠ job_id)
    let st' := eraseA s.scheduled_tasks task_id
    let p' := SchedulerPersistence.delete_schedule env.delete_ok task_id s.persistence
    let tasks' :=
      if (lookupA s.tasks task_id).isSome then
        updateA s.tasks task_id (fun t => { t with schedule := none, next_run_time := none })
      else s.tasks
    (true, { s with
             tasks := tasks'
             scheduled_tasks := st'
             jobs := jobs'
             persistence := p'
             events := s.events ++ [SchedEvent.schedule_removed task_id] })

/-- The composed schedule info returned by `get_task_schedule`. -/
structure ScheduleInfo where
  task_id : List Char
  job_id : List Char
  schedule_type : List Char
  schedule_value : List Char
  human_readable : List Char
  next_run_time : Option (List Char)
  trigger : List (List Char × List Char)
  deriving DecidableEq, Repr

/-- `TaskScheduler.get_task_schedule`: composes live job state with the
persisted row; `None` when either side is missing. -/
def get_task_schedule (task_id : List Char) (s : SchedState) : Option ScheduleInfo :=
  match lookupA s.scheduled_tasks task_id with
  | none => none
  | some job_id =>
    match s.jobs.find? (fun j => j.id = job_id) with
    | none => none
    | some job =>
      match SchedulerPersistence.get_schedule task_id s.persistence with
      | none => none
      | some row =>
        some ⟨task_id, job_id, row.schedule_type, row.schedule_value,
              TriggerParser.get_human_readable row.schedule_value,
              job.next_run_time.map isoformat,
              TriggerParser.get_trigger_info job.trigger⟩

/-- `TaskScheduler.get_all_schedules`: every tracked task_id whose composition
succeeds. -/
def get_all_schedules (s : SchedState) : List (List Char × ScheduleInfo) :=
  s.scheduled_tasks.filterMap (fun p => (get_task_schedule p.1 s).map (fun i => (p.1, i)))

/-- What the Executor call `await agent._execute_task(task, "scheduler")`
does: finish (leaving a terminal `status`/`error` on the registry entry) or
raise. -/
inductive ExecOutcome where
  | ok (status : List Char) (error : Option (List Char))
  | exn (msg : List Char)
  deriving DecidableEq, Repr

/-- Collaborator outcomes during one `_execute_task` invocation: the three
`datetime.now()` samples, the Executor outcome, and whether each of the (at
most two) `log_task_run` SQLite inserts takes effect. -/
structure ExecEnv where
  t_start : DateTime
  t_upd : DateTime
  t_end : DateTime
  outcome : ExecOutcome
  log_start_ok : Bool
  log_end_ok : Bool
  log_err_ok : Bool
  deriving DecidableEq, Repr

/-- Python `set.add`. -/
def setAdd (x : List Char) (l : List (List Char)) : List (List Char) :=
  if x ∈ l then l else x :: l

/-- `TaskScheduler._execute_task`, the timer callback.  Returns the new state
and whether the Executor was invoked.  The only step of the guarded region
that can raise is the Executor call itself (persistence and listener errors
are swallowed in their own methods), so the `except` branch corresponds
exactly to `ExecOutcome.exn`. -/
def _execute_task (env : ExecEnv) (task_id : List Char) (s : SchedState) :
    SchedState × Bool :=
  match lookupA s.tasks task_id with
  | none => (s, false)
  | some _ =>
    if task_id ∈ s.running_tasks then (s, false)
    else
      let running1 := setAdd task_id s.running_tasks
      let p1 := SchedulerPersistence.log_task_run env.log_start_ok task_id
        (str "running") env.t_start none none s.persistence
      let ev1 := SchedEvent.task_started task_id (isoformat env.t_start)
      let tasks1 := updateA s.tasks task_id (fun t =>
        { t with status := str "pending", progress := 0, result := none,
                 error := none, updated_at := some env.t_upd })
      let s1 : SchedState := { s with
                               running_tasks := running1
                               persistence := p1
                               tasks := tasks1
                               events := s.events ++ [ev1] }
      match env.outcome with
      | .ok st er =>
        let tasks2 := updateA s1.tasks task_id (fun t =>
          { t with status := st, error := er })
        let p2 := SchedulerPersistence.log_task_run env.log_end_ok task_id st
          env.t_start (some env.t_end) er s1.persistence
        let ev2 := SchedEvent.task_finished task_id st (isoformat env.t_start)
          (isoformat env.t_end) er
        ({ s1 with tasks := tasks2, persistence := p2,
                   events := s1.events ++ [ev2],
                   running_tasks := s1.running_tasks.erase task_id }, true)
      | .exn msg =>
        let p2 := SchedulerPersistence.log_task_run env.log_err_ok task_id
          (str "failed") env.t_start (some env.t_end) (some msg) s1.persistence
        let ev2 := SchedEvent.task_error task_id msg (isoformat env.t_end)
        let running2 :=
          if task_id ∈ s1.running_tasks then s1.running_tasks.erase task_id
          else s1.running_tasks
        ({ s1 with persistence := p2, events := s1.events ++ [ev2],
                   running_tasks := running2 }, true)

/-- The stale-one-shot guard of `_load_schedules`: a persisted `date`-type
schedule is skipped when the instant embedded in its `schedule_value` parses
and is not in the future.  A missing `":"`, an unparsable instant, or the
`TypeError` from comparing an aware instant with the naive `now` all land in
the bare `except: pass` and do not skip. -/
def loadGuard (now : DateTime) (row : ScheduleRow) : Bool :=
  row.schedule_type = str "date" &&
  (match splitOnce ':' row.schedule_value with
   | none => false
   | some (_, rest) =>
     match fromisoformat (pyStrip rest) with
     | none => false
     | some run_date => (pyLe run_date now).getD false)

/-- The per-row body of `_load_schedules`, folded over the snapshot of
persisted rows. -/
def loadLoop (envf : List Char → SchedEnv) (now : DateTime) :
    List ScheduleRow → SchedState → SchedState
  | [], s => s
  | row :: rest, s =>
    if (lookupA s.tasks row.task_id).isNone then loadLoop envf now rest s
    else if loadGuard now row then loadLoop envf now rest s
    else
      loadLoop envf now rest
        (schedule_task (envf row.task_id) now row.task_id row.schedule_value none s).2

/-- `TaskScheduler._load_schedules`: iterate over the rows fetched once from
the store, re-registering the survivors through the normal `schedule_task`
path. -/
def _load_schedules (envf : List Char → SchedEnv) (now : DateTime) (s : SchedState) :
    SchedState :=
  loadLoop envf now (SchedulerPersistence.get_all_schedules s.persistence) s

/-- The daily retention job registered by `_schedule_cleanup`
(`CronTrigger(hour=0, minute=0)`, id `cleanup_task`, `replace_existing`). -/
def cleanupJob : Job :=
  ⟨str "cleanup_task", none,
   .cron (str "0") (str "0") (str "*") (str "*") (str "*"), none⟩

/-- `TaskScheduler.start`: load persisted schedules, start the engine, and
register the daily cleanup job. -/
def start (envf : List Char → SchedEnv) (now : DateTime) (s : SchedState) : SchedState :=
  let s1 := _load_schedules envf now s
  { s1 with jobs := s1.jobs.filter (fun j => j.id ≠ str "cleanup_task") ++ [cleanupJob] }

end TaskScheduler

/-! ## The schedule-spec grammar as written in the spec

For the refinement claims these definitions follow the specification's own
wording of the wire format (`cron:<m> <h> <dom> <mon> <dow>`,
`every <N><unit>`, `at:<ISO-8601 instant>`, `in <N><unit>`), to be compared
with what `TriggerParser.parse` accepts. -/

/-- Spec grammar, cron form: `cron:` followed by exactly five fields separated
by single spaces, each matching its field-specific range grammar. -/
def spec_cron_grammar (s : List Char) : Bool :=
  (str "cron:").isPrefixOf s &&
  (let fields := splitOnChar ' ' (s.drop 5)
   fields.length = 5 && (fields.enum.all fun p => TriggerParser.fieldOk p.1 p.2))

/-- Spec grammar, interval form: `every ` followed immediately by a positive
decimal count and a unit letter in `{s,m,h,d}`. -/
def spec_interval_grammar (s : List Char) : Bool :=
  (str "every ").isPrefixOf s &&
  (match TriggerParser.matchNumUnit (s.drop 6) with
   | some (n, _) => decide (0 < n)
   | none => false)

/-- Spec grammar, one-shot form: `at:` followed immediately by an ISO-8601
instant. -/
def spec_at_grammar (s : List Char) : Bool :=
  (str "at:").isPrefixOf s && (fromisoformat (s.drop 3)).isSome

/-- Spec grammar, relative form: `in ` followed immediately by a positive
decimal count and a unit letter. -/
def spec_in_grammar (s : List Char) : Bool :=
  (str "in ").isPrefixOf s &&
  (match TriggerParser.matchNumUnit (s.drop 3) with
   | some (n, _) => decide (0 < n)
   | none => false)

/-- The four spec grammars, literally. -/
def spec_schedule_grammar (s : List Char) : Bool :=
  spec_cron_grammar s || spec_interval_grammar s || spec_at_grammar s || spec_in_grammar s

/-- What `TriggerParser.parse` actually accepts: the four grammars with the
argument portion taken up to surrounding whitespace (and cron fields split on
whitespace runs), restricted by the validity checks of the external
constructors — cron fields must also pass `CronTrigger`'s semantic
`validate_range` (no inverted ranges, steps within the field range), the
one-shot instant must be offset-naive, and the interval/relative counts must
stay within `timedelta` (and, for `in`, `datetime`) range.  The relative form
therefore depends on `now`. -/
def lenient_schedule_grammar (now : DateTime) (s : List Char) : Bool :=
  if (str "cron:").isPrefixOf s then
    TriggerParser._validate_cron (pyStrip (s.drop 5)) &&
      TriggerParser.cronSemOk (pySplitWs (pyStrip (s.drop 5)))
  else if (str "every ").isPrefixOf s then
    (match TriggerParser.matchNumUnit (pyStrip (s.drop 6)) with
     | some (n, u) =>
       decide (0 < n) && TriggerParser.timedeltaOk (n * TriggerParser.unitSeconds u)
     | none => false)
  else if (str "at:").isPrefixOf s then
    (match fromisoformat (pyStrip (s.drop 3)) with
     | some d => d.tzSeconds.isNone
     | none => false)
  else if (str "in ").isPrefixOf s then
    (match TriggerParser.matchNumUnit (pyStrip (s.drop 3)) with
     | some (n, u) =>
       decide (0 < n) && (TriggerParser.timedeltaOk (n * TriggerParser.unitSeconds u) &&
         decide ((addSeconds now ((n * TriggerParser.unitSeconds u : Nat) : Int)).year
           ≤ 9999))
     | none => false)
  else false

/-! Engine-level sanity checks on concrete inputs. -/

/-- A registry entry as tasks are created. -/
def rec0 : TaskRec := ⟨str "pending", 0, none, none, none, none, none⟩

/-- A small concrete engine state with one registered task. -/
def s0 : SchedState := ⟨[(str "t1", rec0)], [], [], [], ⟨[], []⟩, []⟩

/-- A benign collaborator environment for `schedule_task` (engine running, so
the `job.next_run_time` read succeeds). -/
def env0 : TaskScheduler.SchedEnv := ⟨str "100.5", true, true, none, true⟩

/-- `datetime.now()` for the concrete runs. -/
def now0 : DateTime := ⟨2025, 1, 1, 0, 0, 0, 0, none⟩

example : (TaskScheduler.schedule_task env0 now0 (str "t1") (str "every 10s") none s0).1 =
    true := by decide

example : (TaskScheduler.schedule_task env0 now0 (str "t2") (str "every 10s") none s0) =
    (false, s0) := by decide

example : (TaskScheduler.schedule_task env0 now0 (str "t1") (str "bogus") none s0) =
    (false, s0) := by decide

example :
    lookupA (TaskScheduler.schedule_task env0 now0 (str "t1") (str "every 10s") none
      s0).2.scheduled_tasks (str "t1") = some (str "task_t1_100.5") := by decide

example :
    (TaskScheduler.cancel_task ⟨true⟩ (str "t1")
      (TaskScheduler.schedule_task env0 now0 (str "t1") (str "every 10s") none s0).2).1 =
    true := by decide

example :
    TaskScheduler.get_task_schedule (str "t1")
      (TaskScheduler.cancel_task ⟨true⟩ (str "t1")
        (TaskScheduler.schedule_task env0 now0 (str "t1") (str "every 10s") none
          s0).2).2 = none := by decide

example :
    TaskScheduler._execute_task
      ⟨now0, now0, now0, .ok (str "completed") none, true, true, true⟩ (str "t1")
      { s0 with running_tasks := [str "t1"] } =
    ({ s0 with running_tasks := [str "t1"] }, false) := by decide

example :
    (TaskScheduler._execute_task
      ⟨now0, now0, now0, .exn (str "boom"), true, true, true⟩ (str "t1") s0).1.running_tasks =
    [] := by decide

example : spec_schedule_grammar (str "every 1h ") = false := by decide

example : (TriggerParser.parse (str "every 1h ") none now0).isSome = true := by decide

/-! ## Association-list lemmas -/

theorem lookupA_nil {α : Type} (k : List Char) : lookupA ([] : List (List Char × α)) k = none := rfl

theorem lookupA_cons {α : Type} (p : List Char × α) (l : List (List Char × α))
    (k : List Char) :
    lookupA (p :: l) k = if p.1 = k then some p.2 else lookupA l k := by
  unfold lookupA
  rw [List.find?_cons]
  by_cases h : p.1 = k
  · simp [h]
  · simp [h]

theorem lookupA_append_none {α : Type} (l m : List (List Char × α)) (k : List Char)
    (h : lookupA l k = none) : lookupA (l ++ m) k = lookupA m k := by
  induction l with
  | nil => rfl
  | cons p rest ih =>
    rw [List.cons_append, lookupA_cons]
    rw [lookupA_cons] at h
    by_cases hp : p.1 = k
    · rw [if_pos hp] at h
      exact absurd h (by simp)
    · rw [if_neg hp] at h ⊢
      exact ih h

theorem lookupA_append_some {α : Type} (l m : List (List Char × α)) (k : List Char)
    (v : α) (h : lookupA l k = some v) : lookupA (l ++ m) k = some v := by
  induction l with
  | nil => exact absurd h (by simp [lookupA_nil])
  | cons p rest ih =>
    rw [List.cons_append, lookupA_cons]
    rw [lookupA_cons] at h
    by_cases hp : p.1 = k
    · rwa [if_pos hp] at h ⊢
    · rw [if_neg hp] at h ⊢
      exact ih h

theorem any_key_false_lookupA {α : Type} (l : List (List Char × α)) (k : List Char)
    (h : l.any (fun p => p.1 = k) = false) : lookupA l k = none := by
  induction l with
  | nil => rfl
  | cons p rest ih =>
    rw [List.any_cons] at h
    rw [lookupA_cons]
    rcases Bool.or_eq_false_iff.mp h with ⟨h1, h2⟩
    rw [if_neg (by simpa using h1)]
    exact ih h2

theorem lookupA_keyfix_hit {α : Type} (l : List (List Char × α)) (k : List Char)
    (v : α) (h : l.any (fun p => p.1 = k) = true) :
    lookupA (l.map (fun p => if p.1 = k then (k, v) else p)) k = some v := by
  induction l with
  | nil =>
    rw [List.any_nil] at h
    exact absurd h Bool.false_ne_true
  | cons p rest ih =>
    rw [List.map_cons]
    by_cases hp : p.1 = k
    · rw [if_pos hp, lookupA_cons, if_pos rfl]
    · rw [if_neg hp, lookupA_cons, if_neg hp]
      rw [List.any_cons] at h
      rcases Bool.or_eq_true_iff.mp h with h1 | h1
      · exact absurd (by simpa using h1) hp
      · exact ih h1

theorem lookupA_keyfix_ne {α : Type} (l : List (List Char × α)) (k k' : List Char)
    (v : α) (h : k' ≠ k) :
    lookupA (l.map (fun p => if p.1 = k then (k, v) else p)) k' = lookupA l k' := by
  induction l with
  | nil => rfl
  | cons p rest ih =>
    rw [List.map_cons]
    by_cases hp : p.1 = k
    · rw [if_pos hp, lookupA_cons, lookupA_cons, if_neg (fun hc => h hc.symm),
        if_neg (fun hc : p.1 = k' => h (hc.symm.trans hp))]
      exact ih
    · rw [if_neg hp, lookupA_cons, lookupA_cons]
      by_cases hq : p.1 = k'
      · rw [if_pos hq, if_pos hq]
      · rw [if_neg hq, if_neg hq]
        exact ih

theorem lookupA_upsert_self {α : Type} (l : List (List Char × α)) (k : List Char)
    (v : α) : lookupA (upsertA l k v) k = some v := by
  unfold upsertA
  by_cases h : l.any (fun p => p.1 = k)
  · rw [if_pos h]
    exact lookupA_keyfix_hit l k v h
  · rw [if_neg h]
    have h0 : l.any (fun p => p.1 = k) = false := by
      cases hb : l.any (fun p => p.1 = k)
      · rfl
      · exact absurd hb h
    rw [lookupA_append_none _ _ _ (any_key_false_lookupA l k h0)]
    rw [lookupA_cons, if_pos rfl]

theorem lookupA_upsert_ne {α : Type} (l : List (List Char × α)) (k k' : List Char)
    (v : α) (h : k' ≠ k) : lookupA (upsertA l k v) k' = lookupA l k' := by
  unfold upsertA
  by_cases ha : l.any (fun p => p.1 = k)
  · rw [if_pos ha]
    exact lookupA_keyfix_ne l k k' v h
  · rw [if_neg ha]
    cases hf : lookupA l k' with
    | some w => exact lookupA_append_some _ _ _ _ hf
    | none =>
      rw [lookupA_append_none _ _ _ hf, lookupA_cons, if_neg (fun hc => h hc.symm)]
      rfl

theorem lookupA_erase_self {α : Type} (l : List (List Char × α)) (k : List Char) :
    lookupA (eraseA l k) k = none := by
  unfold eraseA
  induction l with
  | nil => rfl
  | cons p rest ih =>
    rw [List.filter_cons]
    by_cases hp : p.1 = k
    · rw [if_neg (by simp [hp])]
      exact ih
    · rw [if_pos (by simpa using hp), lookupA_cons, if_neg hp]
      exact ih

theorem lookupA_erase_ne {α : Type} (l : List (List Char × α)) (k k' : List Char)
    (h : k' ≠ k) : lookupA (eraseA l k) k' = lookupA l k' := by
  unfold eraseA
  induction l with
  | nil => rfl
  | cons p rest ih =>
    rw [List.filter_cons, lookupA_cons]
    by_cases hp : p.1 = k
    · rw [if_neg (by simp [hp]), if_neg (fun hc : p.1 = k' => h (hc.symm.trans hp))]
      exact ih
    · rw [if_pos (by simpa using hp), lookupA_cons]
      by_cases hq : p.1 = k'
      · rw [if_pos hq, if_pos hq]
      · rw [if_neg hq, if_neg hq]
        exact ih

theorem lookupA_updateA {α : Type} (l : List (List Char × α)) (k : List Char)
    (f : α → α) (k' : List Char) :
    lookupA (updateA l k f) k' =
      if k' = k then (lookupA l k').map f else lookupA l k' := by
  unfold updateA
  by_cases hkk : k' = k
  · subst hkk
    rw [if_pos rfl]
    induction l with
    | nil => rfl
    | cons p rest ih =>
      rw [List.map_cons]
      by_cases hp : p.1 = k'
      · rw [if_pos hp, lookupA_cons, lookupA_cons, if_pos hp, if_pos hp]
        rfl
      · rw [if_neg hp, lookupA_cons, lookupA_cons, if_neg hp, if_neg hp]
        exact ih
  · rw [if_neg hkk]
    induction l with
    | nil => rfl
    | cons p rest ih =>
      rw [List.map_cons]
      by_cases hp : p.1 = k
      · rw [if_pos hp, lookupA_cons, lookupA_cons,
          if_neg (fun hc : p.1 = k' => hkk (hc.symm.trans hp)),
          if_neg (fun hc : p.1 = k' => hkk (hc.symm.trans hp))]
        exact ih
      · rw [if_neg hp, lookupA_cons, lookupA_cons]
        by_cases hq : p.1 = k'
        · rw [if_pos hq, if_pos hq]
        · rw [if_neg hq, if_neg hq]
          exact ih

/-! ## Claim theorems -/

/-- Claim C1: when `_execute_task(task_id)` fires while `task_id` is already a
member of `running_tasks`, the invocation returns with the state completely
unchanged (no new `task_runs` row, no Executor invocation, no change to
`running_tasks`, the Task Registry, or the event stream); and the guard is
per-key: a different task_id that is not in `running_tasks` still reaches the
Executor. -/
theorem c1_overlap_guard (env : TaskScheduler.ExecEnv) (t t2 : List Char)
    (s : SchedState) :
    (t ∈ s.running_tasks → TaskScheduler._execute_task env t s = (s, false)) ∧
    (t ∈ s.running_tasks → t2 ≠ t → t2 ∉ s.running_tasks →
      (lookupA s.tasks t2).isSome → (TaskScheduler._execute_task env t2 s).2 = true) := by
  constructor
  · intro h
    unfold TaskScheduler._execute_task
    cases hl : lookupA s.tasks t with
    | none => rfl
    | some r => simp only [if_pos h]
  · intro _ _ h2 h3
    unfold TaskScheduler._execute_task
    cases hl : lookupA s.tasks t2 with
    | none => rw [hl] at h3; exact absurd h3 (by simp)
    | some r =>
      rw [if_neg h2]
      cases env.outcome <;> rfl

/-- Witness for C1 at a concrete state: `t1` is mid-execution, so its second
firing is a no-op, while `t2` still executes. -/
theorem c1_overlap_guard_witness :
    (TaskScheduler._execute_task ⟨now0, now0, now0, .ok (str "completed") none, true, true, true⟩
      (str "t1")
      ⟨[(str "t1", rec0), (str "t2", rec0)], [], [str "t1"], [], ⟨[], []⟩, []⟩ =
      (⟨[(str "t1", rec0), (str "t2", rec0)], [], [str "t1"], [], ⟨[], []⟩, []⟩, false)) ∧
    (TaskScheduler._execute_task ⟨now0, now0, now0, .ok (str "completed") none, true, true, true⟩
      (str "t2")
      ⟨[(str "t1", rec0), (str "t2", rec0)], [], [str "t1"], [], ⟨[], []⟩, []⟩).2 = true := by
  constructor
  · exact (c1_overlap_guard _ (str "t1") (str "t2") _).1 (by decide)
  · exact (c1_overlap_guard _ (str "t1") (str "t2") _).2 (by decide) (by decide)
      (by decide) (by decide)

/-- Claim C3: an invocation of `_execute_task(task_id)` that starts with
`task_id` outside `running_tasks` (the only way it can claim the slot) never
leaves `task_id` in `running_tasks` when it completes — whether the Executor
returns normally or raises, and whatever the outcomes of the `log_task_run`
writes are, the slot is released on every path. -/
theorem c3_slot_released (env : TaskScheduler.ExecEnv) (t : List Char)
    (s : SchedState) (h : t ∉ s.running_tasks) :
    t ∉ (TaskScheduler._execute_task env t s).1.running_tasks := by
  unfold TaskScheduler._execute_task
  cases hl : lookupA s.tasks t with
  | none => exact h
  | some r =>
    rw [if_neg h]
    cases ho : env.outcome with
    | ok st er =>
      simp only [TaskScheduler.setAdd, if_neg h]
      rw [List.erase_cons_head]
      exact h
    | exn msg =>
      simp only [TaskScheduler.setAdd, if_neg h]
      rw [if_pos (List.mem_cons_self t s.running_tasks)]
      rw [List.erase_cons_head]
      exact h

/-- Witness for C3: the Executor raises and the error-path `log_task_run`
write fails, yet the slot is still released. -/
theorem c3_slot_released_witness :
    (str "t1") ∉ (TaskScheduler._execute_task
      ⟨now0, now0, now0, .exn (str "boom"), true, true, false⟩ (str "t1")
      s0).1.running_tasks := by
  exact c3_slot_released _ (str "t1") s0 (by decide)

/-- After a successful `delete_schedule`, no `schedules` row with the deleted
task_id can be found. -/
theorem find?_taskid_filter (tid : List Char) (l : List ScheduleRow) :
    (l.filter (fun r => r.task_id ≠ tid)).find? (fun r => r.task_id = tid) = none := by
  induction l with
  | nil => rfl
  | cons r rest ih =>
    rw [List.filter_cons]
    by_cases hr : r.task_id = tid
    · rw [if_neg (by simp [hr])]
      exact ih
    · rw [if_pos (by simpa using hr), List.find?_cons]
      have hd : (decide (r.task_id = tid)) = false := by simpa using hr
      rw [hd]
      exact ih

theorem get_schedule_delete_self (tid : List Char) (p : PState) :
    SchedulerPersistence.get_schedule tid (SchedulerPersistence.delete_schedule true tid p) =
      none := by
  show (p.schedules.filter (fun r => r.task_id ≠ tid)).find? (fun r => r.task_id = tid) =
    none
  exact find?_taskid_filter tid p.schedules

/-- Claim C8: `cancel_task` on a tracked task_id removes the timer job
(tolerating an absent job: the filter is a no-op then), deletes the tracking
entry and the persisted row, clears the registry entry's `schedule` and
`next_run_time`, emits `schedule_removed`, and returns `true`, after which
`get_task_schedule` is `None`; on an untracked task_id it returns `false`
and changes nothing. -/
theorem c8_cancel_task :
    (∀ (env : TaskScheduler.CancelEnv) (tid jid : List Char) (rec : TaskRec)
      (s : SchedState), lookupA s.scheduled_tasks tid = some jid →
      env.delete_ok = true → lookupA s.tasks tid = some rec →
      (TaskScheduler.cancel_task env tid s).1 = true ∧
      (TaskScheduler.cancel_task env tid s).2.jobs =
        s.jobs.filter (fun j => j.id ≠ jid) ∧
      ((∀ j ∈ s.jobs, j.id ≠ jid) →
        (TaskScheduler.cancel_task env tid s).2.jobs = s.jobs) ∧
      lookupA (TaskScheduler.cancel_task env tid s).2.scheduled_tasks tid = none ∧
      SchedulerPersistence.get_schedule tid
        (TaskScheduler.cancel_task env tid s).2.persistence = none ∧
      lookupA (TaskScheduler.cancel_task env tid s).2.tasks tid =
        some { rec with schedule := none, next_run_time := none } ∧
      (TaskScheduler.cancel_task env tid s).2.events =
        s.events ++ [SchedEvent.schedule_removed tid] ∧
      TaskScheduler.get_task_schedule tid (TaskScheduler.cancel_task env tid s).2 =
        none) ∧
    (∀ (env : TaskScheduler.CancelEnv) (tid : List Char) (s : SchedState),
      lookupA s.scheduled_tasks tid = none →
      TaskScheduler.cancel_task env tid s = (false, s)) := by
  constructor
  · intro env tid jid rec s hsch hdel hreg
    have hrun : TaskScheduler.cancel_task env tid s =
        (true,
         { s with
           tasks := updateA s.tasks tid
             (fun t => { t with schedule := none, next_run_time := none })
           scheduled_tasks := eraseA s.scheduled_tasks tid
           jobs := s.jobs.filter (fun j => j.id ≠ jid)
           persistence := SchedulerPersistence.delete_schedule true tid s.persistence
           events := s.events ++ [SchedEvent.schedule_removed tid] }) := by
      unfold TaskScheduler.cancel_task
      rw [hsch]
      rw [hreg]
      rw [hdel]
      rfl
    rw [hrun]
    refine ⟨rfl, rfl, ?_, ?_, ?_, ?_, rfl, ?_⟩
    · intro hall
      apply List.filter_eq_self.mpr
      intro j hj
      simpa using hall j hj
    · exact lookupA_erase_self _ _
    · exact get_schedule_delete_self _ _
    · rw [lookupA_updateA, if_pos rfl, hreg]
      rfl
    · unfold TaskScheduler.get_task_schedule
      rw [lookupA_erase_self]
  · intro env tid s hsch
    unfold TaskScheduler.cancel_task
    rw [hsch]

/-- Witness for C8: cancelling a freshly scheduled `t1`, then observing a
`None` schedule; plus the no-op `false` case. -/
theorem c8_cancel_task_witness :
    ((TaskScheduler.cancel_task ⟨true⟩ (str "t1")
        (TaskScheduler.schedule_task env0 now0 (str "t1") (str "every 10s") none
          s0).2).1 = true ∧
      lookupA (TaskScheduler.cancel_task ⟨true⟩ (str "t1")
        (TaskScheduler.schedule_task env0 now0 (str "t1") (str "every 10s") none
          s0).2).2.tasks (str "t1") = some rec0 ∧
      TaskScheduler.get_task_schedule (str "t1")
        (TaskScheduler.cancel_task ⟨true⟩ (str "t1")
          (TaskScheduler.schedule_task env0 now0 (str "t1") (str "every 10s") none
            s0).2).2 = none) ∧
    TaskScheduler.cancel_task ⟨true⟩ (str "t9") s0 = (false, s0) := by
  have h := (c8_cancel_task).1 ⟨true⟩ (str "t1") (str "task_t1_100.5")
    { rec0 with
      schedule := some (TriggerParser.get_human_readable (str "every 10s"))
      next_run_time := none }
    (TaskScheduler.schedule_task env0 now0 (str "t1") (str "every 10s") none s0).2
    (by decide) (by decide) (by decide)
  exact ⟨⟨h.1, by decide, h.2.2.2.2.2.2.2⟩,
    (c8_cancel_task).2 ⟨true⟩ (str "t9") s0 (by decide)⟩

/-- Claim C10: `cancel_task` on a task_id that is tracked in
`scheduled_tasks` but absent from the Task Registry still succeeds: the job,
tracking entry and persisted row are removed and `schedule_removed` is
emitted, the registry is left untouched (the clearing step is guarded by a
membership check), and `true` is returned. -/
theorem c10_cancel_unregistered (env : TaskScheduler.CancelEnv) (tid jid : List Char)
    (s : SchedState) (hsch : lookupA s.scheduled_tasks tid = some jid)
    (hreg : lookupA s.tasks tid = none) (hdel : env.delete_ok = true) :
    (TaskScheduler.cancel_task env tid s).1 = true ∧
    (TaskScheduler.cancel_task env tid s).2.jobs =
      s.jobs.filter (fun j => j.id ≠ jid) ∧
    lookupA (TaskScheduler.cancel_task env tid s).2.scheduled_tasks tid = none ∧
    SchedulerPersistence.get_schedule tid
      (TaskScheduler.cancel_task env tid s).2.persistence = none ∧
    (TaskScheduler.cancel_task env tid s).2.tasks = s.tasks ∧
    (TaskScheduler.cancel_task env tid s).2.events =
      s.events ++ [SchedEvent.schedule_removed tid] := by
  have hrun : TaskScheduler.cancel_task env tid s =
      (true,
       { s with
         scheduled_tasks := eraseA s.scheduled_tasks tid
         jobs := s.jobs.filter (fun j => j.id ≠ jid)
         persistence := SchedulerPersistence.delete_schedule true tid s.persistence
         events := s.events ++ [SchedEvent.schedule_removed tid] }) := by
    unfold TaskScheduler.cancel_task
    rw [hsch]
    rw [hreg]
    rw [hdel]
    rfl
  rw [hrun]
  exact ⟨rfl, rfl, lookupA_erase_self _ _, get_schedule_delete_self _ _, rfl, rfl⟩

/-- Witness for C10: `t9` is tracked but was deleted from the registry;
cancellation still succeeds and leaves the registry alone. -/
theorem c10_cancel_unregistered_witness :
    (TaskScheduler.cancel_task ⟨true⟩ (str "t9")
      ⟨[(str "t1", rec0)], [(str "t9", str "task_t9_1")],
       [], [⟨str "task_t9_1", some (str "t9"), .interval 10 's' none, none⟩],
       ⟨[⟨str "t9", str "task_t9_1", str "interval", str "every 10s", none⟩], []⟩,
       []⟩).1 = true ∧
    (TaskScheduler.cancel_task ⟨true⟩ (str "t9")
      ⟨[(str "t1", rec0)], [(str "t9", str "task_t9_1")],
       [], [⟨str "task_t9_1", some (str "t9"), .interval 10 's' none, none⟩],
       ⟨[⟨str "t9", str "task_t9_1", str "interval", str "every 10s", none⟩], []⟩,
       []⟩).2.tasks = [(str "t1", rec0)] := by
  have h := c10_cancel_unregistered ⟨true⟩ (str "t9") (str "task_t9_1")
    ⟨[(str "t1", rec0)], [(str "t9", str "task_t9_1")],
     [], [⟨str "task_t9_1", some (str "t9"), .interval 10 's' none, none⟩],
     ⟨[⟨str "t9", str "task_t9_1", str "interval", str "every 10s", none⟩], []⟩,
     []⟩ (by decide) (by decide) (by decide)
  exact ⟨h.1, h.2.2.2.2.1⟩

theorem bool_false_of_not_true {b : Bool} (h : ¬ b = true) : b = false := by
  cases b
  · rfl
  · exact absurd rfl h

theorem find?_eq_none_of_any_false {α : Type} (l : List α) (p : α → Bool)
    (h : l.any p = false) : l.find? p = none := by
  induction l with
  | nil => rfl
  | cons a rest ih =>
    rw [List.any_cons] at h
    rcases Bool.or_eq_false_iff.mp h with ⟨h1, h2⟩
    rw [List.find?_cons, h1]
    exact ih h2

/-- The row rewrite performed by `save_schedule`'s UPDATE branch. -/
def updRow (jid ty v : List Char) (nstr : Option (List Char)) (r : ScheduleRow) : ScheduleRow :=
  { r with job_id := jid, schedule_type := ty, schedule_value := v, next_run_time := nstr }

theorem find?_taskid_map_upd (tid jid ty v : List Char) (nstr : Option (List Char))
    (l : List ScheduleRow) (h : l.any (fun r => r.task_id = tid) = true) :
    (List.find? (fun r => r.task_id = tid)
      (l.map (fun r => if r.task_id = tid then updRow jid ty v nstr r else r))).isSome =
      true := by
  induction l with
  | nil =>
    rw [List.any_nil] at h
    exact absurd h Bool.false_ne_true
  | cons r rest ih =>
    rw [List.map_cons]
    by_cases hr : r.task_id = tid
    · rw [if_pos hr, List.find?_cons]
      have hd : (decide ((updRow jid ty v nstr r).task_id = tid)) = true := by
        simp [updRow, hr]
      rw [hd]
      rfl
    · rw [if_neg hr, List.find?_cons]
      have hd : (decide (r.task_id = tid)) = false := by simpa using hr
      rw [hd]
      rw [List.any_cons] at h
      rcases Bool.or_eq_true_iff.mp h with h1 | h1
      · exact absurd (by simpa using h1) hr
      · exact ih h1

/-- A successful `save_schedule` leaves a findable row for its task_id. -/
theorem get_schedule_save_isSome (tid jid ty v : List Char) (nrt : Option DateTime)
    (p : PState) :
    (SchedulerPersistence.get_schedule tid
      (SchedulerPersistence.save_schedule true tid jid ty v nrt p)).isSome = true := by
  by_cases h : p.schedules.any (fun r => r.task_id = tid)
  · have hrun : SchedulerPersistence.save_schedule true tid jid ty v nrt p =
        { p with schedules := p.schedules.map (fun r => if r.task_id = tid then
            updRow jid ty v (nrt.map isoformat) r else r) } := by
      unfold SchedulerPersistence.save_schedule updRow
      rw [if_neg (by simp), if_pos h]
    rw [hrun]
    exact find?_taskid_map_upd tid jid ty v (nrt.map isoformat) p.schedules h
  · have hrun : SchedulerPersistence.save_schedule true tid jid ty v nrt p =
        { p with schedules := p.schedules ++
            [⟨tid, jid, ty, v, nrt.map isoformat⟩] } := by
      unfold SchedulerPersistence.save_schedule
      rw [if_neg (by simp), if_neg h]
    rw [hrun]
    show (List.find? (fun r => r.task_id = tid) (p.schedules ++ _)).isSome = true
    rw [List.find?_append,
      find?_eq_none_of_any_false _ _ (bool_false_of_not_true h)]
    simp

/-- Claim C2, counterexample, in two parts.  (a) With the task present and a
valid spec, but the SQLite write inside `save_schedule` failing (the failure
is logged and swallowed by `save_schedule`'s own handler), `schedule_task`
still returns `true` while no Schedule row was persisted — so "returns true
only if ... the schedule is persisted" is false of the code.  (b) When the
job is added while the engine is not running (the `_load_schedules` path),
the `job.next_run_time` read raises `AttributeError` after the job and the
`scheduled_tasks` mapping were recorded, so `schedule_task` returns `false`
with an orphaned registered job — refuting "on any failure ... removes the
job if it was added". -/
theorem c2_counterexample :
    ((TaskScheduler.schedule_task ⟨str "100.5", true, true, none, false⟩ now0 (str "t1")
      (str "every 5m") none s0).1 = true ∧
     (TaskScheduler.schedule_task ⟨str "100.5", true, true, none, false⟩ now0 (str "t1")
      (str "every 5m") none s0).2.persistence.schedules = [] ∧
     (TaskScheduler.schedule_task ⟨str "100.5", true, true, none, false⟩ now0 (str "t1")
      (str "every 5m") none s0).2.jobs ≠ []) ∧
    ((TaskScheduler.schedule_task ⟨str "100.5", true, false, none, true⟩ now0 (str "t1")
      (str "every 5m") none s0).1 = false ∧
     (TaskScheduler.schedule_task ⟨str "100.5", true, false, none, true⟩ now0 (str "t1")
      (str "every 5m") none s0).2.jobs ≠ [] ∧
     lookupA (TaskScheduler.schedule_task ⟨str "100.5", true, false, none, true⟩ now0
       (str "t1") (str "every 5m") none s0).2.scheduled_tasks (str "t1") =
       some (str "task_t1_100.5")) := by decide

/-- Claim C2, amended: `schedule_task` returns `true` only if the task exists
in the registry, the spec parses, `add_job` succeeded, the `job.next_run_time`
read succeeded, the freshly generated job is registered and the task_id →
job_id mapping is recorded — and, when the storage write succeeds, the
schedule is persisted (a storage failure is swallowed inside `save_schedule`
and does not change the return value: the documented degraded mode).  A
`false` return leaves the state completely unchanged when the failure is one
of the three pre-registration guards; but when the `job.next_run_time` read
raises (a pending job, added before the engine started), `schedule_task`
returns `false` with the job registered and the mapping recorded — an
orphaned timer job, since no rollback exists — while the registry,
persistence and listener log are untouched. -/
theorem c2_schedule_task (env : TaskScheduler.SchedEnv) (now : DateTime)
    (tid spec : List Char) (st : Option DateTime) (s : SchedState) :
    ((TaskScheduler.schedule_task env now tid spec st s).1 = true →
      (lookupA s.tasks tid).isSome = true ∧
      TriggerParser.parse spec st now ≠ none ∧
      env.add_job_ok = true ∧
      env.nrt_ok = true ∧
      (∃ j, j ∈ (TaskScheduler.schedule_task env now tid spec st s).2.jobs ∧
        j.id = str "task_" ++ tid ++ ['_'] ++ env.ts ∧ j.task = some tid) ∧
      lookupA (TaskScheduler.schedule_task env now tid spec st s).2.scheduled_tasks tid =
        some (str "task_" ++ tid ++ ['_'] ++ env.ts) ∧
      (env.save_ok = true →
        (SchedulerPersistence.get_schedule tid
          (TaskScheduler.schedule_task env now tid spec st s).2.persistence).isSome =
          true)) ∧
    ((TaskScheduler.schedule_task env now tid spec st s).1 = false →
      ((TaskScheduler.schedule_task env now tid spec st s).2 = s ∧
        ((lookupA s.tasks tid).isSome = false ∨ TriggerParser.parse spec st now = none ∨
          env.add_job_ok = false)) ∨
      (env.nrt_ok = false ∧
        (TaskScheduler.schedule_task env now tid spec st s).2.tasks = s.tasks ∧
        (TaskScheduler.schedule_task env now tid spec st s).2.persistence =
          s.persistence ∧
        (TaskScheduler.schedule_task env now tid spec st s).2.events = s.events ∧
        lookupA (TaskScheduler.schedule_task env now tid spec st s).2.scheduled_tasks
          tid = some (str "task_" ++ tid ++ ['_'] ++ env.ts) ∧
        (∃ j, j ∈ (TaskScheduler.schedule_task env now tid spec st s).2.jobs ∧
          j.id = str "task_" ++ tid ++ ['_'] ++ env.ts ∧ j.task = some tid))) := by
  cases hl : lookupA s.tasks tid with
  | none =>
    have hrun : TaskScheduler.schedule_task env now tid spec st s = (false, s) := by
      unfold TaskScheduler.schedule_task
      rw [hl]
    rw [hrun]
    exact ⟨fun h => absurd h (by simp), fun _ => Or.inl ⟨rfl, Or.inl rfl⟩⟩
  | some rec =>
    cases hp : TriggerParser.parse spec st now with
    | none =>
      have hrun : TaskScheduler.schedule_task env now tid spec st s = (false, s) := by
        unfold TaskScheduler.schedule_task
        rw [hl, hp]
      rw [hrun]
      exact ⟨fun h => absurd h (by simp), fun _ => Or.inl ⟨rfl, Or.inr (Or.inl rfl)⟩⟩
    | some trigger =>
      cases hj : env.add_job_ok with
      | false =>
        have hrun : TaskScheduler.schedule_task env now tid spec st s = (false, s) := by
          unfold TaskScheduler.schedule_task
          rw [hl, hp, hj]
          rfl
        rw [hrun]
        exact ⟨fun h => absurd h (by simp), fun _ => Or.inl ⟨rfl, Or.inr (Or.inr rfl)⟩⟩
      | true =>
        cases hn : env.nrt_ok with
        | false =>
          have hrun : TaskScheduler.schedule_task env now tid spec st s =
              (false,
               { s with
                 scheduled_tasks := upsertA s.scheduled_tasks tid
                   (str "task_" ++ tid ++ ['_'] ++ env.ts)
                 jobs := s.jobs.filter
                     (fun j => j.id ≠ str "task_" ++ tid ++ ['_'] ++ env.ts) ++
                   [⟨str "task_" ++ tid ++ ['_'] ++ env.ts, some tid, trigger,
                     env.job_next_run⟩] }) := by
            unfold TaskScheduler.schedule_task
            rw [hl, hp, hj, hn]
            rfl
          rw [hrun]
          refine ⟨fun h => absurd h (by simp),
            fun _ => Or.inr ⟨rfl, rfl, rfl, rfl, ?_, ?_⟩⟩
          · exact lookupA_upsert_self _ _ _
          · refine ⟨⟨str "task_" ++ tid ++ ['_'] ++ env.ts, some tid, trigger,
              env.job_next_run⟩, ?_, rfl, rfl⟩
            exact List.mem_append_right _ (List.mem_singleton.mpr rfl)
        | true =>
          have hrun : TaskScheduler.schedule_task env now tid spec st s =
              (true,
               { s with
                 tasks := updateA s.tasks tid (fun t =>
                   { t with schedule := some (TriggerParser.get_human_readable spec),
                            next_run_time := env.job_next_run })
                 scheduled_tasks := upsertA s.scheduled_tasks tid
                   (str "task_" ++ tid ++ ['_'] ++ env.ts)
                 jobs := s.jobs.filter
                     (fun j => j.id ≠ str "task_" ++ tid ++ ['_'] ++ env.ts) ++
                   [⟨str "task_" ++ tid ++ ['_'] ++ env.ts, some tid, trigger,
                     env.job_next_run⟩]
                 persistence := SchedulerPersistence.save_schedule env.save_ok tid
                   (str "task_" ++ tid ++ ['_'] ++ env.ts)
                   (TaskScheduler.scheduleTypeOf trigger) spec env.job_next_run
                   s.persistence
                 events := s.events ++
                   [SchedEvent.schedule_update tid
                     (str "task_" ++ tid ++ ['_'] ++ env.ts)
                     (TaskScheduler.scheduleTypeOf trigger) spec
                     (TriggerParser.get_human_readable spec)
                     (env.job_next_run.map isoformat)] }) := by
            unfold TaskScheduler.schedule_task
            rw [hl, hp, hj, hn]
            rfl
          rw [hrun]
          refine ⟨fun _ => ⟨rfl, by simp, rfl, rfl, ?_, ?_, ?_⟩,
            fun h => absurd h (by simp)⟩
          · refine ⟨⟨str "task_" ++ tid ++ ['_'] ++ env.ts, some tid, trigger,
              env.job_next_run⟩, ?_, rfl, rfl⟩
            exact List.mem_append_right _ (List.mem_singleton.mpr rfl)
          · exact lookupA_upsert_self _ _ _
          · intro hs
            rw [hs]
            exact get_schedule_save_isSome _ _ _ _ _ _

/-- Witness for C2 (amended): a fully successful registration; a parse
failure leaving the state unchanged; and the pending-job path returning
`false` with the job orphaned. -/
theorem c2_schedule_task_witness :
    ((lookupA s0.tasks (str "t1")).isSome = true ∧
      TriggerParser.parse (str "every 10s") none now0 ≠ none ∧
      env0.add_job_ok = true ∧
      env0.nrt_ok = true ∧
      (∃ j, j ∈ (TaskScheduler.schedule_task env0 now0 (str "t1") (str "every 10s")
          none s0).2.jobs ∧
        j.id = str "task_" ++ str "t1" ++ ['_'] ++ env0.ts ∧ j.task = some (str "t1")) ∧
      lookupA (TaskScheduler.schedule_task env0 now0 (str "t1") (str "every 10s")
          none s0).2.scheduled_tasks (str "t1") =
        some (str "task_" ++ str "t1" ++ ['_'] ++ env0.ts) ∧
      (env0.save_ok = true →
        (SchedulerPersistence.get_schedule (str "t1")
          (TaskScheduler.schedule_task env0 now0 (str "t1") (str "every 10s")
            none s0).2.persistence).isSome = true)) ∧
    (((TaskScheduler.schedule_task ⟨str "100.5", true, false, none, true⟩ now0
        (str "t1") (str "every 10s") none s0).2 = s0 ∧
      ((lookupA s0.tasks (str "t1")).isSome = false ∨
        TriggerParser.parse (str "every 10s") none now0 = none ∨
        (⟨str "100.5", true, false, none, true⟩ : TaskScheduler.SchedEnv).add_job_ok =
          false)) ∨
     ((⟨str "100.5", true, false, none, true⟩ : TaskScheduler.SchedEnv).nrt_ok = false ∧
      (TaskScheduler.schedule_task ⟨str "100.5", true, false, none, true⟩ now0
        (str "t1") (str "every 10s") none s0).2.tasks = s0.tasks ∧
      (TaskScheduler.schedule_task ⟨str "100.5", true, false, none, true⟩ now0
        (str "t1") (str "every 10s") none s0).2.persistence = s0.persistence ∧
      (TaskScheduler.schedule_task ⟨str "100.5", true, false, none, true⟩ now0
        (str "t1") (str "every 10s") none s0).2.events = s0.events ∧
      lookupA (TaskScheduler.schedule_task ⟨str "100.5", true, false, none, true⟩ now0
        (str "t1") (str "every 10s") none s0).2.scheduled_tasks (str "t1") =
        some (str "task_" ++ str "t1" ++ ['_'] ++
          (⟨str "100.5", true, false, none, true⟩ : TaskScheduler.SchedEnv).ts) ∧
      (∃ j, j ∈ (TaskScheduler.schedule_task ⟨str "100.5", true, false, none, true⟩
          now0 (str "t1") (str "every 10s") none s0).2.jobs ∧
        j.id = str "task_" ++ str "t1" ++ ['_'] ++
          (⟨str "100.5", true, false, none, true⟩ : TaskScheduler.SchedEnv).ts ∧
        j.task = some (str "t1")))) := by
  exact ⟨(c2_schedule_task env0 now0 (str "t1") (str "every 10s") none s0).1 (by decide),
    (c2_schedule_task ⟨str "100.5", true, false, none, true⟩ now0 (str "t1")
      (str "every 10s") none s0).2 (by decide)⟩

/-! ## String lemmas for the parser/formatter claims -/

theorem str_cron : str "cron:" = ['c', 'r', 'o', 'n', ':'] := rfl

theorem str_every : str "every " = ['e', 'v', 'e', 'r', 'y', ' '] := rfl

theorem str_at : str "at:" = ['a', 't', ':'] := rfl

theorem str_in : str "in " = ['i', 'n', ' '] := rfl

theorem isPrefixOf_append_self (l r : List Char) : l.isPrefixOf (l ++ r) = true := by
  induction l with
  | nil => simp [List.isPrefixOf]
  | cons a as ih => simp [List.isPrefixOf, ih]

theorem not_prefix_of_head_ne (a b : Char) (as bs : List Char) (h : a ≠ b) :
    List.isPrefixOf (a :: as) (b :: bs) = false := by
  simp [List.isPrefixOf, h]

theorem dropWhile_eq_self_of_all (p : Char → Bool) (l : List Char)
    (h : ∀ c ∈ l, p c = false) : l.dropWhile p = l := by
  cases l with
  | nil => rfl
  | cons a as =>
    rw [List.dropWhile_cons, if_neg]
    rw [h a (List.mem_cons_self a as)]
    simp

theorem pyStrip_eq_self_of_all (l : List Char) (h : ∀ c ∈ l, pyIsSpace c = false) :
    pyStrip l = l := by
  unfold pyStrip
  rw [dropWhile_eq_self_of_all _ _ h]
  rw [dropWhile_eq_self_of_all _ _ (fun c hc => h c (List.mem_reverse.mp hc))]
  exact List.reverse_reverse l

theorem pyIsSpace_eq_false_of_isDigit (c : Char) (h : c.isDigit = true) :
    pyIsSpace c = false := by
  cases hs : pyIsSpace c
  · rfl
  · exfalso
    have hc : ((((c = ' ' ∨ c = '\t') ∨ c = '\n') ∨ c = '\x0d') ∨ c = '\x0b') ∨
        c = '\x0c' := by
      simpa [pyIsSpace] using hs
    rcases hc with ((((rfl | rfl) | rfl) | rfl) | rfl) | rfl <;> exact absurd h (by decide)

theorem unit_not_space (u : Char) (hu : (u = 's' || u = 'm' || u = 'h' || u = 'd') = true) :
    pyIsSpace u = false := by
  have hc : ((u = 's' ∨ u = 'm') ∨ u = 'h') ∨ u = 'd' := by simpa using hu
  rcases hc with ((rfl | rfl) | rfl) | rfl <;> rfl

theorem unit_not_digit (u : Char) (hu : (u = 's' || u = 'm' || u = 'h' || u = 'd') = true) :
    u.isDigit = false := by
  have hc : ((u = 's' ∨ u = 'm') ∨ u = 'h') ∨ u = 'd' := by simpa using hu
  rcases hc with ((rfl | rfl) | rfl) | rfl <;> rfl

theorem takeWhile_digits_append (ds : List Char) (u : Char)
    (h2 : ∀ c ∈ ds, c.isDigit = true) (hu : u.isDigit = false) :
    (ds ++ [u]).takeWhile Char.isDigit = ds ∧
    (ds ++ [u]).dropWhile Char.isDigit = [u] := by
  induction ds with
  | nil =>
    constructor
    · rw [List.nil_append, List.takeWhile_cons, if_neg (by rw [hu]; simp)]
    · rw [List.nil_append, List.dropWhile_cons, if_neg (by rw [hu]; simp)]
  | cons c cs ih =>
    have hc : c.isDigit = true := h2 c (List.mem_cons_self c cs)
    have ih' := ih (fun x hx => h2 x (List.mem_cons_of_mem c hx))
    constructor
    · rw [List.cons_append, List.takeWhile_cons, if_pos (by rw [hc]), ih'.1]
    · rw [List.cons_append, List.dropWhile_cons, if_pos (by rw [hc]), ih'.2]

theorem matchNumUnit_digits (ds : List Char) (u : Char) (h1 : ds ≠ [])
    (h2 : ∀ c ∈ ds, c.isDigit = true)
    (hu : (u = 's' || u = 'm' || u = 'h' || u = 'd') = true) :
    TriggerParser.matchNumUnit (ds ++ [u]) = some (natOfDigits ds, u) := by
  unfold TriggerParser.matchNumUnit
  rw [(takeWhile_digits_append ds u h2 (unit_not_digit u hu)).1,
    (takeWhile_digits_append ds u h2 (unit_not_digit u hu)).2]
  show (if (decide (ds ≠ []) &&
      (decide (u = 's') || decide (u = 'm') || decide (u = 'h') || decide (u = 'd'))) =
      true then some (natOfDigits ds, u) else none) = some (natOfDigits ds, u)
  rw [decide_eq_true h1, hu, Bool.true_and, if_pos rfl]

theorem numUnit_chars_not_space (ds : List Char) (u : Char)
    (h2 : ∀ c ∈ ds, c.isDigit = true)
    (hu : (u = 's' || u = 'm' || u = 'h' || u = 'd') = true) :
    ∀ c ∈ ds ++ [u], pyIsSpace c = false := by
  intro c hc
  rcases List.mem_append.mp hc with hc | hc
  · exact pyIsSpace_eq_false_of_isDigit c (h2 c hc)
  · rw [List.mem_singleton.mp hc]
    exact unit_not_space u hu

/-- Claim C4: `get_human_readable` is a total function of the spec string
(no branch can raise); every cron spec renders as `Cron schedule: <expr>`;
every interval spec `every <N><unit>` renders as `Every N <unit-word>` with
English pluralization (`every 1h` ↦ `Every 1 hour`, `every 2h` ↦
`Every 2 hours`); every relative spec renders as `In N <unit-word>`; and a
spec matching none of the four prefixes is returned verbatim. -/
theorem c4_get_human_readable :
    (∀ expr, pyStrip expr = expr →
      TriggerParser.get_human_readable (str "cron:" ++ expr) =
        str "Cron schedule: " ++ expr) ∧
    (∀ ds u, ds ≠ [] → (∀ c ∈ ds, c.isDigit = true) →
      (u = 's' || u = 'm' || u = 'h' || u = 'd') = true →
      TriggerParser.get_human_readable (str "every " ++ (ds ++ [u])) =
        str "Every " ++ (Nat.repr (natOfDigits ds)).data ++ [' '] ++
          TriggerParser.unitName (natOfDigits ds) u) ∧
    (TriggerParser.get_human_readable (str "every 1h") = str "Every 1 hour" ∧
     TriggerParser.get_human_readable (str "every 2h") = str "Every 2 hours") ∧
    (∀ ds u, ds ≠ [] → (∀ c ∈ ds, c.isDigit = true) →
      (u = 's' || u = 'm' || u = 'h' || u = 'd') = true →
      TriggerParser.get_human_readable (str "in " ++ (ds ++ [u])) =
        str "In " ++ (Nat.repr (natOfDigits ds)).data ++ [' '] ++
          TriggerParser.unitName (natOfDigits ds) u) ∧
    (∀ s, (str "cron:").isPrefixOf s = false → (str "every ").isPrefixOf s = false →
      (str "at:").isPrefixOf s = false → (str "in ").isPrefixOf s = false →
      TriggerParser.get_human_readable s = s) := by
  refine ⟨?_, ?_, by decide, ?_, ?_⟩
  · intro expr h
    unfold TriggerParser.get_human_readable
    rw [if_pos (isPrefixOf_append_self _ _)]
    have hdrop : (str "cron:" ++ expr).drop 5 = expr := rfl
    rw [hdrop, h]
  · intro ds u h1 h2 hu
    unfold TriggerParser.get_human_readable
    have hc : (str "cron:").isPrefixOf (str "every " ++ (ds ++ [u])) = false := by
      rw [str_cron, str_every, List.cons_append]
      exact not_prefix_of_head_ne _ _ _ _ (by decide)
    rw [hc, if_neg Bool.false_ne_true, if_pos (isPrefixOf_append_self _ _)]
    have hdrop : (str "every " ++ (ds ++ [u])).drop 6 = ds ++ [u] := rfl
    rw [hdrop, pyStrip_eq_self_of_all _ (numUnit_chars_not_space ds u h2 hu)]
    simp only [matchNumUnit_digits ds u h1 h2 hu]
  · intro ds u h1 h2 hu
    unfold TriggerParser.get_human_readable
    have hc : (str "cron:").isPrefixOf (str "in " ++ (ds ++ [u])) = false := by
      rw [str_cron, str_in, List.cons_append]
      exact not_prefix_of_head_ne _ _ _ _ (by decide)
    have he : (str "every ").isPrefixOf (str "in " ++ (ds ++ [u])) = false := by
      rw [str_every, str_in, List.cons_append]
      exact not_prefix_of_head_ne _ _ _ _ (by decide)
    have ha : (str "at:").isPrefixOf (str "in " ++ (ds ++ [u])) = false := by
      rw [str_at, str_in, List.cons_append]
      exact not_prefix_of_head_ne _ _ _ _ (by decide)
    rw [hc, if_neg Bool.false_ne_true, he, if_neg Bool.false_ne_true,
      ha, if_neg Bool.false_ne_true, if_pos (isPrefixOf_append_self _ _)]
    have hdrop : (str "in " ++ (ds ++ [u])).drop 3 = ds ++ [u] := rfl
    rw [hdrop, pyStrip_eq_self_of_all _ (numUnit_chars_not_space ds u h2 hu)]
    simp only [matchNumUnit_digits ds u h1 h2 hu]
  · intro s hc he ha hi
    unfold TriggerParser.get_human_readable
    rw [hc, if_neg Bool.false_ne_true, he, if_neg Bool.false_ne_true,
      ha, if_neg Bool.false_ne_true, hi, if_neg Bool.false_ne_true]

/-- Witness for C4: each clause at a concrete spec. -/
theorem c4_get_human_readable_witness :
    TriggerParser.get_human_readable (str "cron:" ++ str "0 9 * * 1-5") =
      str "Cron schedule: " ++ str "0 9 * * 1-5" ∧
    TriggerParser.get_human_readable (str "every " ++ (['2'] ++ ['h'])) =
      str "Every " ++ (Nat.repr (natOfDigits ['2'])).data ++ [' '] ++
        TriggerParser.unitName (natOfDigits ['2']) 'h' ∧
    TriggerParser.get_human_readable (str "in " ++ (['3', '0'] ++ ['m'])) =
      str "In " ++ (Nat.repr (natOfDigits ['3', '0'])).data ++ [' '] ++
        TriggerParser.unitName (natOfDigits ['3', '0']) 'm' ∧
    TriggerParser.get_human_readable (str "bogus") = str "bogus" := by
  exact ⟨c4_get_human_readable.1 (str "0 9 * * 1-5") (by decide),
    c4_get_human_readable.2.1 ['2'] 'h' (by decide) (by decide) (by decide),
    c4_get_human_readable.2.2.2.1 ['3', '0'] 'm' (by decide) (by decide) (by decide),
    c4_get_human_readable.2.2.2.2 (str "bogus") (by decide) (by decide) (by decide)
      (by decide)⟩

/-! ## Migration lemmas (C6) -/

theorem migrateLoop_preserves (tid : List Char)
    (entries : List (List Char × SchedulerPersistence.LegacyEntry))
    (acc : List ScheduleRow) (h : acc.any (fun r => r.task_id = tid) = true) :
    (SchedulerPersistence.migrateLoop entries acc).filter (fun r => r.task_id = tid) =
      acc.filter (fun r => r.task_id = tid) := by
  induction entries generalizing acc with
  | nil => rfl
  | cons p rest ih =>
    show (SchedulerPersistence.migrateLoop rest
      (SchedulerPersistence.migrateEntry p.1 p.2 acc)).filter _ = _
    unfold SchedulerPersistence.migrateEntry
    by_cases hk : acc.any (fun r => r.task_id = p.1)
    · rw [if_pos hk]
      exact ih acc h
    · rw [if_neg hk]
      have hne : p.1 ≠ tid := by
        intro he
        rw [he] at hk
        exact hk h
      have hgrow : (acc ++ [(⟨p.1, (p.2.job_id.getD []),
          ((p.2.trigger.getD SchedulerPersistence.emptyLegacyTrigger).type.getD
            (str "unknown")),
          SchedulerPersistence.legacyScheduleValue
            ((p.2.trigger.getD SchedulerPersistence.emptyLegacyTrigger).type.getD
              (str "unknown"))
            (p.2.trigger.getD SchedulerPersistence.emptyLegacyTrigger),
          p.2.next_run_time⟩ : ScheduleRow)]).any (fun r => r.task_id = tid) = true := by
        rw [List.any_append, h]
        rfl
      rw [ih _ hgrow, List.filter_append]
      have : ([(⟨p.1, (p.2.job_id.getD []),
          ((p.2.trigger.getD SchedulerPersistence.emptyLegacyTrigger).type.getD
            (str "unknown")),
          SchedulerPersistence.legacyScheduleValue
            ((p.2.trigger.getD SchedulerPersistence.emptyLegacyTrigger).type.getD
              (str "unknown"))
            (p.2.trigger.getD SchedulerPersistence.emptyLegacyTrigger),
          p.2.next_run_time⟩ : ScheduleRow)]).filter (fun r => r.task_id = tid) = [] := by
        rw [List.filter_cons]
        rw [if_neg (by simpa using hne)]
        rfl
      rw [this, List.append_nil]

theorem migrateLoop_at_most_one
    (entries : List (List Char × SchedulerPersistence.LegacyEntry))
    (acc : List ScheduleRow)
    (h : ∀ tid, (acc.filter (fun r => r.task_id = tid)).length ≤ 1) :
    ∀ tid, ((SchedulerPersistence.migrateLoop entries acc).filter
      (fun r => r.task_id = tid)).length ≤ 1 := by
  induction entries generalizing acc with
  | nil => exact h
  | cons p rest ih =>
    show ∀ tid, ((SchedulerPersistence.migrateLoop rest
      (SchedulerPersistence.migrateEntry p.1 p.2 acc)).filter _).length ≤ 1
    unfold SchedulerPersistence.migrateEntry
    by_cases hk : acc.any (fun r => r.task_id = p.1)
    · rw [if_pos hk]
      exact ih acc h
    · rw [if_neg hk]
      apply ih
      intro tid
      rw [List.filter_append, List.length_append]
      by_cases ht : p.1 = tid
      · subst ht
        have hnil : acc.filter (fun r => r.task_id = p.1) = [] := by
          apply List.filter_eq_nil_iff.mpr
          exact List.any_eq_false.mp (bool_false_of_not_true hk)
        rw [hnil]
        simp
      · have hone : (List.filter (fun r => r.task_id = tid)
            [(⟨p.1, (p.2.job_id.getD []),
              ((p.2.trigger.getD SchedulerPersistence.emptyLegacyTrigger).type.getD
                (str "unknown")),
              SchedulerPersistence.legacyScheduleValue
                ((p.2.trigger.getD SchedulerPersistence.emptyLegacyTrigger).type.getD
                  (str "unknown"))
                (p.2.trigger.getD SchedulerPersistence.emptyLegacyTrigger),
              p.2.next_run_time⟩ : ScheduleRow)]) = [] := by
          rw [List.filter_cons, if_neg (by simpa using ht)]
          rfl
        rw [hone]
        simpa using h tid

/-- Claim C6: `_migrate_from_json` is idempotent — a second run over the
resulting state changes nothing (the legacy file has been renamed away, and
in any case every task_id that already has a `schedules` row is skipped by
the existence check), so no duplicate rows are ever inserted; unrecognized
legacy trigger shapes map to the `schedule_value` `"unknown"` instead of
aborting; and a successful pass renames the legacy file (content preserved)
rather than deleting it. -/
theorem c6_migration_idempotent :
    (∀ m : SchedulerPersistence.MigState,
      SchedulerPersistence._migrate_from_json (SchedulerPersistence._migrate_from_json m) =
        SchedulerPersistence._migrate_from_json m) ∧
    (∀ (m : SchedulerPersistence.MigState) (tid : List Char),
      m.schedules.any (fun r => r.task_id = tid) = true →
      (SchedulerPersistence._migrate_from_json m).schedules.filter
          (fun r => r.task_id = tid) =
        m.schedules.filter (fun r => r.task_id = tid)) ∧
    (∀ m : SchedulerPersistence.MigState,
      (∀ tid, (m.schedules.filter (fun r => r.task_id = tid)).length ≤ 1) →
      ∀ tid, ((SchedulerPersistence._migrate_from_json m).schedules.filter
        (fun r => r.task_id = tid)).length ≤ 1) ∧
    (∀ (ty : List Char) (trig : SchedulerPersistence.LegacyTrigger),
      ty ≠ str "cron" → ty ≠ str "interval" → ty ≠ str "date" →
      SchedulerPersistence.legacyScheduleValue ty trig = str "unknown") ∧
    (∀ (m : SchedulerPersistence.MigState)
      (entries : List (List Char × SchedulerPersistence.LegacyEntry)),
      m.json_file = some entries → entries ≠ [] →
      (SchedulerPersistence._migrate_from_json m).json_file = none ∧
      (SchedulerPersistence._migrate_from_json m).migrated_file = some entries) := by
  refine ⟨?_, ?_, ?_, ?_, ?_⟩
  · intro m
    cases hj : m.json_file with
    | none =>
      have h1 : SchedulerPersistence._migrate_from_json m = m := by
        simp only [SchedulerPersistence._migrate_from_json, hj]
      rw [h1, h1]
    | some entries =>
      by_cases hemp : entries.isEmpty
      · have h1 : SchedulerPersistence._migrate_from_json m = m := by
          simp only [SchedulerPersistence._migrate_from_json, hj]
          rw [if_pos hemp]
        rw [h1, h1]
      · have h1 : SchedulerPersistence._migrate_from_json m =
            ⟨none, some entries,
             SchedulerPersistence.migrateLoop entries m.schedules⟩ := by
          simp only [SchedulerPersistence._migrate_from_json, hj]
          rw [if_neg hemp]
        rw [h1]
        rfl
  · intro m tid h
    cases hj : m.json_file with
    | none =>
      have h1 : SchedulerPersistence._migrate_from_json m = m := by
        simp only [SchedulerPersistence._migrate_from_json, hj]
      rw [h1]
    | some entries =>
      by_cases hemp : entries.isEmpty
      · have h1 : SchedulerPersistence._migrate_from_json m = m := by
          simp only [SchedulerPersistence._migrate_from_json, hj]
          rw [if_pos hemp]
        rw [h1]
      · have h1 : SchedulerPersistence._migrate_from_json m =
            ⟨none, some entries,
             SchedulerPersistence.migrateLoop entries m.schedules⟩ := by
          simp only [SchedulerPersistence._migrate_from_json, hj]
          rw [if_neg hemp]
        rw [h1]
        exact migrateLoop_preserves tid entries m.schedules h
  · intro m h
    cases hj : m.json_file with
    | none =>
      have h1 : SchedulerPersistence._migrate_from_json m = m := by
        simp only [SchedulerPersistence._migrate_from_json, hj]
      rw [h1]
      exact h
    | some entries =>
      by_cases hemp : entries.isEmpty
      · have h1 : SchedulerPersistence._migrate_from_json m = m := by
          simp only [SchedulerPersistence._migrate_from_json, hj]
          rw [if_pos hemp]
        rw [h1]
        exact h
      · have h1 : SchedulerPersistence._migrate_from_json m =
            ⟨none, some entries,
             SchedulerPersistence.migrateLoop entries m.schedules⟩ := by
          simp only [SchedulerPersistence._migrate_from_json, hj]
          rw [if_neg hemp]
        rw [h1]
        exact migrateLoop_at_most_one entries m.schedules h
  · intro ty trig h1 h2 h3
    unfold SchedulerPersistence.legacyScheduleValue
    rw [if_neg h1, if_neg h2, if_neg h3]
  · intro m entries hj hne
    have hemp : entries.isEmpty = false := by
      cases entries with
      | nil => exact absurd rfl hne
      | cons a l => rfl
    have h1 : SchedulerPersistence._migrate_from_json m =
        ⟨none, some entries,
         SchedulerPersistence.migrateLoop entries m.schedules⟩ := by
      simp only [SchedulerPersistence._migrate_from_json, hj]
      rw [if_neg (by rw [hemp]; simp)]
    rw [h1]
    exact ⟨rfl, rfl⟩

/-- A concrete legacy state for the C6 witness: `t1` already migrated, `t2`
carrying an unrecognized trigger shape. -/
def legacyState : SchedulerPersistence.MigState :=
  ⟨some [(str "t1",
      ⟨some ⟨some (str "interval"), none, none, none, none, none, some 1800, none⟩,
       some (str "job1"), none⟩),
     (str "t2",
      ⟨some ⟨some (str "weird"), none, none, none, none, none, none, none⟩,
       none, none⟩)],
   none,
   [⟨str "t1", str "j0", str "interval", str "every 30m", none⟩]⟩

/-- Witness for C6 at `legacyState`. -/
theorem c6_migration_idempotent_witness :
    SchedulerPersistence._migrate_from_json
        (SchedulerPersistence._migrate_from_json legacyState) =
      SchedulerPersistence._migrate_from_json legacyState ∧
    (SchedulerPersistence._migrate_from_json legacyState).schedules.filter
        (fun r => r.task_id = str "t1") =
      legacyState.schedules.filter (fun r => r.task_id = str "t1") ∧
    ((SchedulerPersistence._migrate_from_json legacyState).schedules.filter
        (fun r => r.task_id = str "t2")).length ≤ 1 ∧
    SchedulerPersistence.legacyScheduleValue (str "weird")
        SchedulerPersistence.emptyLegacyTrigger = str "unknown" ∧
    (SchedulerPersistence._migrate_from_json legacyState).json_file = none := by
  refine ⟨c6_migration_idempotent.1 legacyState,
    c6_migration_idempotent.2.1 legacyState (str "t1") (by decide),
    c6_migration_idempotent.2.2.1 legacyState ?_ (str "t2"),
    c6_migration_idempotent.2.2.2.1 (str "weird")
      SchedulerPersistence.emptyLegacyTrigger (by decide) (by decide) (by decide),
    (c6_migration_idempotent.2.2.2.2 legacyState _ rfl (by decide)).1⟩
  intro tid
  show (List.filter (fun r => decide (r.task_id = tid))
    [(⟨str "t1", str "j0", str "interval", str "every 30m", none⟩ : ScheduleRow)]).length ≤ 1
  rw [List.filter_cons]
  cases hd : decide ((⟨str "t1", str "j0", str "interval", str "every 30m",
      none⟩ : ScheduleRow).task_id = tid)
  · simp [hd]
  · simp [hd]

theorem length_eq_five {α : Type} (l : List α) (h : l.length = 5) :
    ∃ a b c d e, l = [a, b, c, d, e] := by
  match l, h with
  | [a, b, c, d, e], _ => exact ⟨a, b, c, d, e, rfl⟩

theorem schedule_task_cases (env : TaskScheduler.SchedEnv) (now : DateTime)
    (tid spec : List Char) (st : Option DateTime) (s : SchedState) :
    (TaskScheduler.schedule_task env now tid spec st s = (false, s) ∧
      ((lookupA s.tasks tid).isSome = false ∨ TriggerParser.parse spec st now = none ∨
        env.add_job_ok = false)) ∨
    (∃ trigger, TriggerParser.parse spec st now = some trigger ∧
      env.nrt_ok = false ∧
      TaskScheduler.schedule_task env now tid spec st s =
        (false,
         { s with
           scheduled_tasks := upsertA s.scheduled_tasks tid
             (str "task_" ++ tid ++ ['_'] ++ env.ts)
           jobs := s.jobs.filter
               (fun j => j.id ≠ str "task_" ++ tid ++ ['_'] ++ env.ts) ++
             [⟨str "task_" ++ tid ++ ['_'] ++ env.ts, some tid, trigger,
               env.job_next_run⟩] })) ∨
    (∃ trigger, TriggerParser.parse spec st now = some trigger ∧
      TaskScheduler.schedule_task env now tid spec st s =
        (true,
         { s with
           tasks := updateA s.tasks tid (fun t =>
             { t with schedule := some (TriggerParser.get_human_readable spec),
                      next_run_time := env.job_next_run })
           scheduled_tasks := upsertA s.scheduled_tasks tid
             (str "task_" ++ tid ++ ['_'] ++ env.ts)
           jobs := s.jobs.filter
               (fun j => j.id ≠ str "task_" ++ tid ++ ['_'] ++ env.ts) ++
             [⟨str "task_" ++ tid ++ ['_'] ++ env.ts, some tid, trigger,
               env.job_next_run⟩]
           persistence := SchedulerPersistence.save_schedule env.save_ok tid
             (str "task_" ++ tid ++ ['_'] ++ env.ts)
             (TaskScheduler.scheduleTypeOf trigger) spec env.job_next_run
             s.persistence
           events := s.events ++
             [SchedEvent.schedule_update tid
               (str "task_" ++ tid ++ ['_'] ++ env.ts)
               (TaskScheduler.scheduleTypeOf trigger) spec
               (TriggerParser.get_human_readable spec)
               (env.job_next_run.map isoformat)] })) := by
  cases hl : lookupA s.tasks tid with
  | none =>
    refine Or.inl ⟨?_, Or.inl rfl⟩
    unfold TaskScheduler.schedule_task
    rw [hl]
  | some rec =>
    cases hp : TriggerParser.parse spec st now with
    | none =>
      refine Or.inl ⟨?_, Or.inr (Or.inl rfl)⟩
      unfold TaskScheduler.schedule_task
      rw [hl, hp]
    | some trigger =>
      cases hj : env.add_job_ok with
      | false =>
        refine Or.inl ⟨?_, Or.inr (Or.inr rfl)⟩
        unfold TaskScheduler.schedule_task
        rw [hl, hp, hj]
        rfl
      | true =>
        cases hn : env.nrt_ok with
        | false =>
          refine Or.inr (Or.inl ⟨trigger, rfl, rfl, ?_⟩)
          unfold TaskScheduler.schedule_task
          rw [hl, hp, hj, hn]
          rfl
        | true =>
          refine Or.inr (Or.inr ⟨trigger, rfl, ?_⟩)
          unfold TaskScheduler.schedule_task
          rw [hl, hp, hj, hn]
          rfl

theorem schedule_task_tasks_isNone (env : TaskScheduler.SchedEnv) (now : DateTime)
    (tid spec : List Char) (st : Option DateTime) (s : SchedState) (k : List Char) :
    (lookupA (TaskScheduler.schedule_task env now tid spec st s).2.tasks k).isNone =
      (lookupA s.tasks k).isNone := by
  rcases schedule_task_cases env now tid spec st s with
    ⟨hrun, _⟩ | ⟨trigger, _, _, hrun⟩ | ⟨trigger, _, hrun⟩
  · rw [hrun]
  · rw [hrun]
  · rw [hrun]
    show (lookupA (updateA s.tasks tid (fun t =>
      { t with schedule := some (TriggerParser.get_human_readable spec),
               next_run_time := env.job_next_run })) k).isNone =
      (lookupA s.tasks k).isNone
    rw [lookupA_updateA]
    by_cases hk : k = tid
    · rw [if_pos hk]
      cases lookupA s.tasks k <;> rfl
    · rw [if_neg hk]

theorem schedule_task_scheduled_ne (env : TaskScheduler.SchedEnv) (now : DateTime)
    (tid spec : List Char) (st : Option DateTime) (s : SchedState) (k : List Char)
    (hk : k ≠ tid) :
    lookupA (TaskScheduler.schedule_task env now tid spec st s).2.scheduled_tasks k =
      lookupA s.scheduled_tasks k := by
  rcases schedule_task_cases env now tid spec st s with
    ⟨hrun, _⟩ | ⟨trigger, _, _, hrun⟩ | ⟨trigger, _, hrun⟩
  · rw [hrun]
  · rw [hrun]
    exact lookupA_upsert_ne _ _ _ _ hk
  · rw [hrun]
    exact lookupA_upsert_ne _ _ _ _ hk

theorem schedule_task_scheduled_mono (env : TaskScheduler.SchedEnv) (now : DateTime)
    (tid spec : List Char) (st : Option DateTime) (s : SchedState) (k : List Char)
    (h : (lookupA s.scheduled_tasks k).isSome = true) :
    (lookupA
      (TaskScheduler.schedule_task env now tid spec st s).2.scheduled_tasks k).isSome =
      true := by
  rcases schedule_task_cases env now tid spec st s with
    ⟨hrun, _⟩ | ⟨trigger, _, _, hrun⟩ | ⟨trigger, _, hrun⟩
  · rw [hrun]
    exact h
  · rw [hrun]
    show (lookupA (upsertA s.scheduled_tasks tid
      (str "task_" ++ tid ++ ['_'] ++ env.ts)) k).isSome = true
    by_cases hk : k = tid
    · rw [hk, lookupA_upsert_self]
      rfl
    · rw [lookupA_upsert_ne _ _ _ _ hk]
      exact h
  · rw [hrun]
    show (lookupA (upsertA s.scheduled_tasks tid
      (str "task_" ++ tid ++ ['_'] ++ env.ts)) k).isSome = true
    by_cases hk : k = tid
    · rw [hk, lookupA_upsert_self]
      rfl
    · rw [lookupA_upsert_ne _ _ _ _ hk]
      exact h

theorem schedule_task_success_scheduled (env : TaskScheduler.SchedEnv) (now : DateTime)
    (tid spec : List Char) (st : Option DateTime) (s : SchedState)
    (hreg : (lookupA s.tasks tid).isSome = true)
    (hp : TriggerParser.parse spec st now ≠ none)
    (hj : env.add_job_ok = true) :
    (lookupA
      (TaskScheduler.schedule_task env now tid spec st s).2.scheduled_tasks tid).isSome =
      true := by
  rcases schedule_task_cases env now tid spec st s with
    ⟨hrun, hwhy⟩ | ⟨trigger, _, _, hrun⟩ | ⟨trigger, _, hrun⟩
  · exfalso
    rcases hwhy with hc | hc | hc
    · rw [hreg] at hc
      exact absurd hc (by simp)
    · exact hp hc
    · rw [hj] at hc
      exact absurd hc (by simp)
  · rw [hrun]
    show (lookupA (upsertA s.scheduled_tasks tid
      (str "task_" ++ tid ++ ['_'] ++ env.ts)) tid).isSome = true
    rw [lookupA_upsert_self]
    rfl
  · rw [hrun]
    show (lookupA (upsertA s.scheduled_tasks tid
      (str "task_" ++ tid ++ ['_'] ++ env.ts)) tid).isSome = true
    rw [lookupA_upsert_self]
    rfl

theorem loadLoop_tasks_isNone (envf : List Char → TaskScheduler.SchedEnv)
    (now : DateTime) (rows : List ScheduleRow) (s : SchedState) (k : List Char) :
    (lookupA (TaskScheduler.loadLoop envf now rows s).tasks k).isNone =
      (lookupA s.tasks k).isNone := by
  induction rows generalizing s with
  | nil => rfl
  | cons row rest ih =>
    show (lookupA (if (lookupA s.tasks row.task_id).isNone then
        TaskScheduler.loadLoop envf now rest s
      else if TaskScheduler.loadGuard now row then TaskScheduler.loadLoop envf now rest s
      else TaskScheduler.loadLoop envf now rest
        (TaskScheduler.schedule_task (envf row.task_id) now row.task_id
          row.schedule_value none s).2).tasks k).isNone = _
    by_cases h1 : (lookupA s.tasks row.task_id).isNone
    · rw [if_pos h1]
      exact ih s
    · rw [if_neg h1]
      by_cases h2 : TaskScheduler.loadGuard now row
      · rw [if_pos h2]
        exact ih s
      · rw [if_neg h2]
        rw [ih _]
        exact schedule_task_tasks_isNone _ _ _ _ _ _ _

theorem loadLoop_scheduled_stable (envf : List Char → TaskScheduler.SchedEnv)
    (now : DateTime) (rows : List ScheduleRow) (s : SchedState) (tid : List Char)
    (h : ∀ row ∈ rows, row.task_id = tid →
      ((lookupA s.tasks row.task_id).isNone = true ∨
        TaskScheduler.loadGuard now row = true)) :
    lookupA (TaskScheduler.loadLoop envf now rows s).scheduled_tasks tid =
      lookupA s.scheduled_tasks tid := by
  induction rows generalizing s with
  | nil => rfl
  | cons row rest ih =>
    show lookupA (if (lookupA s.tasks row.task_id).isNone then
        TaskScheduler.loadLoop envf now rest s
      else if TaskScheduler.loadGuard now row then TaskScheduler.loadLoop envf now rest s
      else TaskScheduler.loadLoop envf now rest
        (TaskScheduler.schedule_task (envf row.task_id) now row.task_id
          row.schedule_value none s).2).scheduled_tasks tid = _
    by_cases h1 : (lookupA s.tasks row.task_id).isNone
    · rw [if_pos h1]
      exact ih s (fun r hr ht => h r (List.mem_cons_of_mem row hr) ht)
    · rw [if_neg h1]
      by_cases h2 : TaskScheduler.loadGuard now row
      · rw [if_pos h2]
        exact ih s (fun r hr ht => h r (List.mem_cons_of_mem row hr) ht)
      · rw [if_neg h2]
        have hne : row.task_id ≠ tid := by
          intro he
          rcases h row (List.mem_cons_self row rest) he with hc | hc
          · exact h1 hc
          · exact h2 hc
        rw [ih _ ?_]
        · exact schedule_task_scheduled_ne _ _ _ _ _ _ _ (Ne.symm hne)
        · intro r hr ht
          rcases h r (List.mem_cons_of_mem row hr) ht with hc | hc
          · refine Or.inl ?_
            rw [schedule_task_tasks_isNone]
            exact hc
          · exact Or.inr hc

theorem loadLoop_scheduled_mono (envf : List Char → TaskScheduler.SchedEnv)
    (now : DateTime) (rows : List ScheduleRow) (s : SchedState) (tid : List Char)
    (h : (lookupA s.scheduled_tasks tid).isSome = true) :
    (lookupA (TaskScheduler.loadLoop envf now rows s).scheduled_tasks tid).isSome =
      true := by
  induction rows generalizing s with
  | nil => exact h
  | cons row rest ih =>
    show (lookupA (if (lookupA s.tasks row.task_id).isNone then
        TaskScheduler.loadLoop envf now rest s
      else if TaskScheduler.loadGuard now row then TaskScheduler.loadLoop envf now rest s
      else TaskScheduler.loadLoop envf now rest
        (TaskScheduler.schedule_task (envf row.task_id) now row.task_id
          row.schedule_value none s).2).scheduled_tasks tid).isSome = true
    by_cases h1 : (lookupA s.tasks row.task_id).isNone
    · rw [if_pos h1]
      exact ih s h
    · rw [if_neg h1]
      by_cases h2 : TaskScheduler.loadGuard now row
      · rw [if_pos h2]
        exact ih s h
      · rw [if_neg h2]
        exact ih _ (schedule_task_scheduled_mono _ _ _ _ _ _ _ h)

theorem loadLoop_success_mem (envf : List Char → TaskScheduler.SchedEnv)
    (now : DateTime) (rows : List ScheduleRow) (s : SchedState) (row : ScheduleRow)
    (hmem : row ∈ rows) (hreg : (lookupA s.tasks row.task_id).isSome = true)
    (hg : TaskScheduler.loadGuard now row = false)
    (hp : TriggerParser.parse row.schedule_value none now ≠ none)
    (hj : (envf row.task_id).add_job_ok = true) :
    (lookupA (TaskScheduler.loadLoop envf now rows s).scheduled_tasks
      row.task_id).isSome = true := by
  induction rows generalizing s with
  | nil => exact absurd hmem (List.not_mem_nil row)
  | cons r rest ih =>
    show (lookupA (if (lookupA s.tasks r.task_id).isNone then
        TaskScheduler.loadLoop envf now rest s
      else if TaskScheduler.loadGuard now r then TaskScheduler.loadLoop envf now rest s
      else TaskScheduler.loadLoop envf now rest
        (TaskScheduler.schedule_task (envf r.task_id) now r.task_id
          r.schedule_value none s).2).scheduled_tasks row.task_id).isSome = true
    rcases List.mem_cons.mp hmem with heq | hmem'
    · subst heq
      have hnn : (lookupA s.tasks row.task_id).isNone = false := by
        cases hx : lookupA s.tasks row.task_id with
        | none =>
          rw [hx] at hreg
          exact absurd hreg (by simp)
        | some v => rfl
      rw [if_neg (by rw [hnn]; simp), if_neg (by rw [hg]; simp)]
      apply loadLoop_scheduled_mono
      exact schedule_task_success_scheduled _ _ _ _ _ _ hreg hp hj
    · by_cases h1 : (lookupA s.tasks r.task_id).isNone
      · rw [if_pos h1]
        exact ih s hmem' hreg
      · rw [if_neg h1]
        by_cases h2 : TaskScheduler.loadGuard now r
        · rw [if_pos h2]
          exact ih s hmem' hreg
        · rw [if_neg h2]
          have hreg2 : (lookupA (TaskScheduler.schedule_task (envf r.task_id) now
              r.task_id r.schedule_value none s).2.tasks row.task_id).isSome = true := by
            have hiso := schedule_task_tasks_isNone (envf r.task_id) now r.task_id
              r.schedule_value none s row.task_id
            cases hx : lookupA (TaskScheduler.schedule_task (envf r.task_id) now
                r.task_id r.schedule_value none s).2.tasks row.task_id with
            | none =>
              exfalso
              rw [hx] at hiso
              cases hy : lookupA s.tasks row.task_id with
              | none =>
                rw [hy] at hreg
                exact absurd hreg (by simp)
              | some v =>
                rw [hy] at hiso
                exact absurd hiso.symm (by simp)
            | some v => rfl
          exact ih _ hmem' hreg2

theorem lookupA_ne_none_of_mem {α : Type} (l : List (List Char × α))
    (p : List Char × α) (hp : p ∈ l) : lookupA l p.1 ≠ none := by
  unfold lookupA
  cases hf : l.find? (fun q => q.1 = p.1) with
  | some q => simp
  | none =>
    exfalso
    have := List.find?_eq_none.mp hf p hp
    simp at this

theorem not_mem_get_all_schedules (s : SchedState) (tid : List Char)
    (h : lookupA s.scheduled_tasks tid = none) :
    ∀ info, (tid, info) ∉ TaskScheduler.get_all_schedules s := by
  intro info hmem
  unfold TaskScheduler.get_all_schedules at hmem
  rcases List.mem_filterMap.mp hmem with ⟨p, hp, hf⟩
  rcases Option.map_eq_some'.mp hf with ⟨i, _, hpair⟩
  have hfst : p.1 = tid := congrArg Prod.fst hpair
  exact lookupA_ne_none_of_mem s.scheduled_tasks p hp (hfst ▸ h)

/-- Claim C7: startup rehydration prunes stale one-shots and unknown tasks —
a persisted `date`-type schedule whose embedded instant parses and is not in
the future is not re-registered (and is absent from `get_all_schedules`
afterwards); a row whose task_id is missing from the Task Registry is
skipped; every surviving row goes through the normal `schedule_task` path
(so it ends up tracked whenever that path succeeds); and, in contrast,
`parse` itself accepts a past-dated `at:` spec at creation time — the
intentional asymmetry. -/
theorem c7_reload_prunes (envf : List Char → TaskScheduler.SchedEnv) (now : DateTime)
    (s : SchedState) (hfresh : s.scheduled_tasks = []) :
    (∀ row ∈ s.persistence.schedules, ∀ pre rest d,
      (s.persistence.schedules.map (fun r => r.task_id)).Nodup →
      row.schedule_type = str "date" →
      splitOnce ':' row.schedule_value = some (pre, rest) →
      fromisoformat (pyStrip rest) = some d →
      pyLe d now = some true →
      lookupA (TaskScheduler.start envf now s).scheduled_tasks row.task_id = none ∧
      ∀ info, (row.task_id, info) ∉
        TaskScheduler.get_all_schedules (TaskScheduler.start envf now s)) ∧
    (∀ row ∈ s.persistence.schedules,
      (s.persistence.schedules.map (fun r => r.task_id)).Nodup →
      lookupA s.tasks row.task_id = none →
      lookupA (TaskScheduler.start envf now s).scheduled_tasks row.task_id = none) ∧
    (∀ row ∈ s.persistence.schedules,
      (lookupA s.tasks row.task_id).isSome = true →
      TaskScheduler.loadGuard now row = false →
      TriggerParser.parse row.schedule_value none now ≠ none →
      (envf row.task_id).add_job_ok = true →
      (lookupA (TaskScheduler.start envf now s).scheduled_tasks
        row.task_id).isSome = true) ∧
    (∀ (dstr : List Char) (d : DateTime), now.tzSeconds = none →
      fromisoformat (pyStrip dstr) = some d → d.tzSeconds = none →
      TriggerParser.parse (str "at:" ++ dstr) none now =
        some (TriggerParser.Trigger.date d)) := by
  refine ⟨?_, ?_, ?_, ?_⟩
  · intro row hrow pre rest d hnodup htype hsplit hiso hle
    have hguard : TaskScheduler.loadGuard now row = true := by
      simp [TaskScheduler.loadGuard, htype, hsplit, hiso, hle]
    have hnone : lookupA (TaskScheduler.start envf now s).scheduled_tasks
        row.task_id = none := by
      show lookupA (TaskScheduler.loadLoop envf now s.persistence.schedules
        s).scheduled_tasks row.task_id = none
      rw [loadLoop_scheduled_stable envf now s.persistence.schedules s row.task_id
        ?_, hfresh]
      · rfl
      · intro r hr ht
        have : r = row := List.inj_on_of_nodup_map hnodup hr hrow (by rw [ht])
        subst this
        exact Or.inr hguard
    exact ⟨hnone, not_mem_get_all_schedules _ _ hnone⟩
  · intro row hrow hnodup hreg
    show lookupA (TaskScheduler.loadLoop envf now s.persistence.schedules
      s).scheduled_tasks row.task_id = none
    rw [loadLoop_scheduled_stable envf now s.persistence.schedules s row.task_id
      ?_, hfresh]
    · rfl
    · intro r hr ht
      have : r = row := List.inj_on_of_nodup_map hnodup hr hrow (by rw [ht])
      subst this
      refine Or.inl ?_
      rw [hreg]
      rfl
  · intro row hrow hreg hg hp hj
    show (lookupA (TaskScheduler.loadLoop envf now s.persistence.schedules
      s).scheduled_tasks row.task_id).isSome = true
    exact loadLoop_success_mem envf now s.persistence.schedules s row hrow hreg hg hp hj
  · intro dstr d hnow hiso htz
    unfold TriggerParser.parse
    have hc : (str "cron:").isPrefixOf (str "at:" ++ dstr) = false := by
      rw [str_cron, str_at, List.cons_append]
      exact not_prefix_of_head_ne _ _ _ _ (by decide)
    have he : (str "every ").isPrefixOf (str "at:" ++ dstr) = false := by
      rw [str_every, str_at, List.cons_append]
      exact not_prefix_of_head_ne _ _ _ _ (by decide)
    rw [hc, if_neg Bool.false_ne_true, he, if_neg Bool.false_ne_true,
      if_pos (isPrefixOf_append_self _ _)]
    unfold TriggerParser._parse_date
    have hdrop : (str "at:" ++ dstr).drop 3 = dstr := rfl
    rw [hdrop]
    simp [pyLe, htz, hnow, hiso]

/-- A concrete pre-start state for the C7 witness: a stale one-shot for `t3`,
a row for the deleted task `tX`, and a live interval row for `t1`. -/
def s7 : SchedState :=
  ⟨[(str "t1", rec0), (str "t3", rec0)], [], [], [],
   ⟨[⟨str "t3", str "j3", str "date", str "at:2020-01-01T00:00:00", none⟩,
     ⟨str "tX", str "jX", str "interval", str "every 5m", none⟩,
     ⟨str "t1", str "j1", str "interval", str "every 5m", none⟩], []⟩, []⟩

/-- Witness for C7 at `s7`: the stale one-shot and the orphaned row are not
re-registered, the live row is, and a future-dated `at:` spec parses. -/
theorem c7_reload_prunes_witness :
    lookupA (TaskScheduler.start (fun _ => env0) now0 s7).scheduled_tasks
      (str "t3") = none ∧
    (str "t3", (⟨[], [], [], [], [], none, []⟩ : TaskScheduler.ScheduleInfo)) ∉
      TaskScheduler.get_all_schedules (TaskScheduler.start (fun _ => env0) now0 s7) ∧
    lookupA (TaskScheduler.start (fun _ => env0) now0 s7).scheduled_tasks
      (str "tX") = none ∧
    (lookupA (TaskScheduler.start (fun _ => env0) now0 s7).scheduled_tasks
      (str "t1")).isSome = true ∧
    TriggerParser.parse (str "at:" ++ str "2030-06-01T00:00:00") none now0 =
      some (TriggerParser.Trigger.date ⟨2030, 6, 1, 0, 0, 0, 0, none⟩) := by
  have h := c7_reload_prunes (fun _ => env0) now0 s7 rfl
  have h1 := h.1 ⟨str "t3", str "j3", str "date", str "at:2020-01-01T00:00:00", none⟩
    (by decide) (str "at") (str "2020-01-01T00:00:00") ⟨2020, 1, 1, 0, 0, 0, 0, none⟩
    (by decide) (by decide) (by decide) (by decide) (by decide)
  exact ⟨h1.1, h1.2 _,
    h.2.1 ⟨str "tX", str "jX", str "interval", str "every 5m", none⟩ (by decide)
      (by decide) (by decide),
    h.2.2.1 ⟨str "t1", str "j1", str "interval", str "every 5m", none⟩ (by decide)
      (by decide) (by decide) (by decide) (by decide),
    h.2.2.2 (str "2030-06-01T00:00:00") ⟨2030, 6, 1, 0, 0, 0, 0, none⟩ rfl
      (by decide) (by decide)⟩

/-! ## SQLite text-order lemmas (C9) -/

theorem strLt_irrefl (l : List Char) : strLt l l = false := by
  induction l with
  | nil => rfl
  | cons a as ih => simp [strLt, ih]

theorem strLt_cons_same (c : Char) (r1 r2 : List Char) :
    strLt (c :: r1) (c :: r2) = strLt r1 r2 := by
  simp [strLt]

theorem strLt_append (l1 l2 r1 r2 : List Char) (hlen : l1.length = l2.length) :
    strLt (l1 ++ r1) (l2 ++ r2) =
      (if l1 = l2 then strLt r1 r2 else strLt l1 l2) := by
  induction l1 generalizing l2 with
  | nil =>
    cases l2 with
    | nil => simp
    | cons b bs => exact absurd hlen (by simp)
  | cons a as ih =>
    cases l2 with
    | nil => exact absurd hlen (by simp)
    | cons b bs =>
      have hlen' : as.length = bs.length := by simpa using hlen
      by_cases hab : a = b
      · subst hab
        rw [List.cons_append, List.cons_append, strLt_cons_same, ih bs hlen']
        by_cases hasbs : as = bs
        · rw [if_pos hasbs, if_pos (by rw [hasbs])]
        · rw [if_neg hasbs, if_neg (by simp [hasbs])]
          simp [strLt, strLt_cons_same]
      · rw [List.cons_append, List.cons_append]
        rw [if_neg (by simp [hab])]
        show (decide (a.toNat < b.toNat) || (decide (a = b) && strLt (as ++ r1) (bs ++ r2))) =
          (decide (a.toNat < b.toNat) || (decide (a = b) && strLt as bs))
        rw [decide_eq_false hab]
        simp

theorem digitsBE_length (w n : Nat) : (digitsBE w n).length = w := by
  simp [digitsBE]

theorem digitsBE_succ (w n : Nat) :
    digitsBE (w + 1) n = digitChar (n / 10 ^ w % 10) :: digitsBE w n := by
  unfold digitsBE
  rw [List.range_succ_eq_map, List.map_cons, List.map_map]
  congr 1
  apply List.map_congr_left
  intro i hi
  show digitChar (n / 10 ^ (w + 1 - 1 - (i + 1)) % 10) = digitChar (n / 10 ^ (w - 1 - i) % 10)
  rw [show w + 1 - 1 - (i + 1) = w - 1 - i from by omega]

theorem digitsBE_mod (w n : Nat) : digitsBE w n = digitsBE w (n % 10 ^ w) := by
  unfold digitsBE
  apply List.map_congr_left
  intro i hi
  have hi' : i < w := List.mem_range.mp hi
  have hle : w - 1 - i + 1 ≤ w := by omega
  rw [← Nat.mod_mul_right_div_self, ← Nat.mod_mul_right_div_self,
    ← pow_succ, Nat.mod_mod_of_dvd n (pow_dvd_pow 10 hle)]

theorem digitChar_toNat (d : Nat) (h : d < 10) : (digitChar d).toNat = 48 + d := by
  interval_cases d <;> rfl

theorem digitChar_inj (d1 d2 : Nat) (h1 : d1 < 10) (h2 : d2 < 10)
    (he : digitChar d1 = digitChar d2) : d1 = d2 := by
  have h3 := congrArg Char.toNat he
  rw [digitChar_toNat d1 h1, digitChar_toNat d2 h2] at h3
  omega

theorem strLt_digitsBE (w a b : Nat) (ha : a < 10 ^ w) (hb : b < 10 ^ w) :
    strLt (digitsBE w a) (digitsBE w b) = decide (a < b) := by
  induction w generalizing a b with
  | zero =>
    have ha0 : a = 0 := Nat.lt_one_iff.mp ha
    have hb0 : b = 0 := Nat.lt_one_iff.mp hb
    subst ha0
    subst hb0
    rfl
  | succ w ih =>
    have hpos : 0 < 10 ^ w := pow_pos (by norm_num) w
    have hda : a / 10 ^ w < 10 := by
      apply Nat.div_lt_of_lt_mul
      rw [← pow_succ]
      exact ha
    have hdb : b / 10 ^ w < 10 := by
      apply Nat.div_lt_of_lt_mul
      rw [← pow_succ]
      exact hb
    rw [digitsBE_succ, digitsBE_succ, Nat.mod_eq_of_lt hda, Nat.mod_eq_of_lt hdb]
    show (decide ((digitChar (a / 10 ^ w)).toNat < (digitChar (b / 10 ^ w)).toNat) ||
      (decide (digitChar (a / 10 ^ w) = digitChar (b / 10 ^ w)) &&
        strLt (digitsBE w a) (digitsBE w b))) = decide (a < b)
    rw [digitsBE_mod w a, digitsBE_mod w b,
      ih (a % 10 ^ w) (b % 10 ^ w) (Nat.mod_lt a hpos) (Nat.mod_lt b hpos),
      digitChar_toNat _ hda, digitChar_toNat _ hdb]
    by_cases h1 : a / 10 ^ w < b / 10 ^ w
    · have hab : a < b := Nat.lt_of_div_lt_div h1
      simp [show 48 + a / 10 ^ w < 48 + b / 10 ^ w by omega, hab]
    · by_cases h2 : a / 10 ^ w = b / 10 ^ w
      · have e1 : 10 ^ w * (a / 10 ^ w) + a % 10 ^ w = a := Nat.div_add_mod a (10 ^ w)
        have e2 : 10 ^ w * (b / 10 ^ w) + b % 10 ^ w = b := Nat.div_add_mod b (10 ^ w)
        have hiff : a % 10 ^ w < b % 10 ^ w ↔ a < b := by
          constructor
          · intro hr
            rw [← e1, ← e2, h2]
            exact Nat.add_lt_add_left hr _
          · intro hab
            by_contra hge
            push_neg at hge
            have hba : b ≤ a := by
              rw [← e1, ← e2, h2]
              exact Nat.add_le_add_left hge _
            omega
        rw [h2]
        simp only [Nat.lt_irrefl, decide_False, decide_True, Bool.false_or,
          Bool.true_and]
        exact decide_eq_decide.mpr hiff
      · have hq : b / 10 ^ w < a / 10 ^ w := by omega
        have hba : b < a := Nat.lt_of_div_lt_div hq
        have hne : digitChar (a / 10 ^ w) ≠ digitChar (b / 10 ^ w) :=
          fun he => h2 (digitChar_inj _ _ hda hdb he)
        simp [show ¬(48 + a / 10 ^ w < 48 + b / 10 ^ w) by omega, hne,
          show ¬ a < b by omega]

theorem digitsBE_ne (w a b : Nat) (ha : a < 10 ^ w) (hb : b < 10 ^ w) (hne : a ≠ b) :
    digitsBE w a ≠ digitsBE w b := by
  intro he
  have h1 := strLt_digitsBE w a b ha hb
  have h2 := strLt_digitsBE w b a hb ha
  rw [he, strLt_irrefl] at h1
  rw [← he, strLt_irrefl] at h2
  rcases Nat.lt_or_ge a b with h | h
  · rw [decide_eq_true h] at h1
    exact absurd h1 (by simp)
  · have hlt : b < a := by omega
    rw [decide_eq_true hlt] at h2
    exact absurd h2 (by simp)

/-- Strict lexicographic order on the calendar date (year, month, day). -/
def dateLt (a b : DateTime) : Prop :=
  a.year < b.year ∨ (a.year = b.year ∧
    (a.month < b.month ∨ (a.month = b.month ∧ a.day < b.day)))

instance (a b : DateTime) : Decidable (dateLt a b) := by
  unfold dateLt
  infer_instance

/-- SQLite's byte comparison of a Python `isoformat` string against the
`datetime(...)`-formatted cutoff is decided entirely by the calendar date:
on equal dates the `'T'`/`' '` separator makes the isoformat string the
larger one. -/
theorem strLt_iso_fmt (d c : DateTime)
    (h1 : d.year < 10000) (h2 : d.month < 100) (h3 : d.day < 100)
    (h4 : c.year < 10000) (h5 : c.month < 100) (h6 : c.day < 100) :
    strLt (isoformat d) (formatYmdHms c) = decide (dateLt d c) := by
  have hTs : ∀ (r1 r2 : List Char), strLt ('T' :: r1) (' ' :: r2) = false := by
    intro r1 r2
    rfl
  unfold isoformat formatYmdHms
  simp only [List.append_assoc, List.singleton_append, List.cons_append,
    List.nil_append]
  rw [strLt_append _ _ _ _ (by rw [digitsBE_length, digitsBE_length])]
  by_cases hy : d.year = c.year
  · rw [if_pos (by rw [hy]), strLt_cons_same,
      strLt_append _ _ _ _ (by rw [digitsBE_length, digitsBE_length])]
    by_cases hm : d.month = c.month
    · rw [if_pos (by rw [hm]), strLt_cons_same,
        strLt_append _ _ _ _ (by rw [digitsBE_length, digitsBE_length])]
      by_cases hd2 : d.day = c.day
      · rw [if_pos (by rw [hd2]), hTs]
        have hnot : ¬ dateLt d c := by
          unfold dateLt
          omega
        simp [hnot]
      · rw [if_neg (digitsBE_ne 2 d.day c.day h3 h6 hd2), strLt_digitsBE 2 _ _ h3 h6]
        exact decide_eq_decide.mpr (by unfold dateLt; omega)
    · rw [if_neg (digitsBE_ne 2 _ _ h2 h5 hm), strLt_digitsBE 2 _ _ h2 h5]
      exact decide_eq_decide.mpr (by unfold dateLt; omega)
  · rw [if_neg (digitsBE_ne 4 _ _ h1 h4 hy), strLt_digitsBE 4 _ _ h1 h4]
    exact decide_eq_decide.mpr (by unfold dateLt; omega)

theorem not_dateLt_of_naiveLe (c d : DateTime) (h : naiveLe c d = true) :
    ¬ dateLt d c := by
  intro hlt
  unfold naiveLe at h
  rcases Bool.or_eq_true_iff.mp h with h1 | h2
  · unfold naiveLt dtTuple at h1
    simp only [listNatLt, Bool.or_eq_true, Bool.and_eq_true, decide_eq_true_eq] at h1
    unfold dateLt at hlt
    omega
  · have h3 : dtTuple c = dtTuple d := of_decide_eq_true h2
    unfold dtTuple at h3
    simp only [List.cons.injEq, and_true] at h3
    unfold dateLt at hlt
    omega

/-- The cutoff instant computed by `datetime('now', '-{days} days')`. -/
def cutoffDT (days : Nat) (now : DateTime) : DateTime :=
  addSeconds now (-(days * 86400 : Nat) : Int)

/-- C9 counterexample: with `now = 2025-09-12T10:00:00`, the row with
`start_time = "2025-08-13T09:00:00"` denotes an instant strictly older than
`now - 30 days` (the cutoff `2025-08-13T10:00:00`), yet
`cleanup_old_runs 30` retains it: SQLite compares the stored isoformat TEXT
byte-wise against the `YYYY-MM-DD HH:MM:SS` rendering of the cutoff, and on
the shared calendar-date prefix the `'T'` separator (byte 84) exceeds the
`' '` separator (byte 32), so the stored string is not below the cutoff
string. -/
theorem c9_counterexample :
    (fromisoformat (str "2025-08-13T09:00:00") =
      some ⟨2025, 8, 13, 9, 0, 0, 0, none⟩) ∧
    (cutoffDT 30 ⟨2025, 9, 12, 10, 0, 0, 0, none⟩ =
      ⟨2025, 8, 13, 10, 0, 0, 0, none⟩) ∧
    (naiveLt ⟨2025, 8, 13, 9, 0, 0, 0, none⟩
      (cutoffDT 30 ⟨2025, 9, 12, 10, 0, 0, 0, none⟩) = true) ∧
    (SchedulerPersistence.cleanup_old_runs 30 ⟨2025, 9, 12, 10, 0, 0, 0, none⟩
        ⟨[], [⟨str "t", str "completed", some (str "2025-08-13T09:00:00"), none, none⟩]⟩ =
      ⟨[], [⟨str "t", str "completed", some (str "2025-08-13T09:00:00"), none, none⟩]⟩) := by
  decide

/-- C9 (amended): `cleanup_old_runs days now` leaves `schedules` untouched
and filters `task_runs` by the SQLite TEXT order: a row survives exactly when
its `start_time` is NULL or not byte-wise below the rendered cutoff
`YYYY-MM-DD HH:MM:SS` string.  For rows storing a Python isoformat string
this means: every row whose instant is at or after the cutoff is kept, and a
row is deleted precisely when its calendar date strictly precedes the
cutoff's calendar date — so rows older than the cutoff that fall on the
cutoff's own calendar date are retained, because `'T' > ' '` byte-wise. -/
theorem c9_cleanup_old_runs (days : Nat) (now : DateTime) (p : PState) :
    ((SchedulerPersistence.cleanup_old_runs days now p).schedules = p.schedules) ∧
    (∀ r ∈ p.task_runs,
      (r ∈ (SchedulerPersistence.cleanup_old_runs days now p).task_runs ↔
        (∀ st, r.start_time = some st →
          strLt st (formatYmdHms (cutoffDT days now)) = false))) ∧
    (∀ r ∈ p.task_runs, ∀ d : DateTime, r.start_time = some (isoformat d) →
      d.year < 10000 → d.month < 100 → d.day < 100 →
      (cutoffDT days now).year < 10000 → (cutoffDT days now).month < 100 →
      (cutoffDT days now).day < 100 →
      naiveLe (cutoffDT days now) d = true →
      r ∈ (SchedulerPersistence.cleanup_old_runs days now p).task_runs) ∧
    (∀ r ∈ p.task_runs, ∀ d : DateTime, r.start_time = some (isoformat d) →
      d.year < 10000 → d.month < 100 → d.day < 100 →
      (cutoffDT days now).year < 10000 → (cutoffDT days now).month < 100 →
      (cutoffDT days now).day < 100 →
      dateLt d (cutoffDT days now) →
      r ∉ (SchedulerPersistence.cleanup_old_runs days now p).task_runs) := by
  have hfil : (SchedulerPersistence.cleanup_old_runs days now p).task_runs
      = p.task_runs.filter (fun r =>
          match r.start_time with
          | none => true
          | some st => !strLt st (formatYmdHms (cutoffDT days now))) := rfl
  refine ⟨rfl, ?_, ?_, ?_⟩
  · intro r hr
    rw [hfil, List.mem_filter]
    cases hst : r.start_time with
    | none => simp [hr, hst]
    | some st0 => simp [hr, hst]
  · intro r hr d hstart hb1 hb2 hb3 hb4 hb5 hb6 hle
    rw [hfil, List.mem_filter]
    refine ⟨hr, ?_⟩
    rw [hstart]
    show (!strLt (isoformat d) (formatYmdHms (cutoffDT days now))) = true
    rw [strLt_iso_fmt d (cutoffDT days now) hb1 hb2 hb3 hb4 hb5 hb6,
      decide_eq_false (not_dateLt_of_naiveLe _ _ hle)]
    rfl
  · intro r hr d hstart hb1 hb2 hb3 hb4 hb5 hb6 hlt hmem
    rw [hfil, List.mem_filter] at hmem
    have hp := hmem.2
    rw [hstart] at hp
    have hp2 : (!strLt (isoformat d) (formatYmdHms (cutoffDT days now))) = true := hp
    rw [strLt_iso_fmt d (cutoffDT days now) hb1 hb2 hb3 hb4 hb5 hb6,
      decide_eq_true hlt] at hp2
    exact absurd hp2 (by simp)

/-- C9 witness: a concrete store where the newer row (2025-09-01, after the
2025-08-13 cutoff for `now = 2025-09-12T10:00:00`) is kept and the older row
(2025-07-01, date strictly before the cutoff's date) is deleted. -/
theorem c9_cleanup_old_runs_witness :
    ((⟨str "t1", str "completed", some (str "2025-09-01T00:00:00"), none, none⟩ : RunRow) ∈
      (SchedulerPersistence.cleanup_old_runs 30 ⟨2025, 9, 12, 10, 0, 0, 0, none⟩
        ⟨[], [⟨str "t0", str "completed", some (str "2025-07-01T00:00:00"), none, none⟩,
          ⟨str "t1", str "completed", some (str "2025-09-01T00:00:00"), none, none⟩]⟩).task_runs) ∧
    ((⟨str "t0", str "completed", some (str "2025-07-01T00:00:00"), none, none⟩ : RunRow) ∉
      (SchedulerPersistence.cleanup_old_runs 30 ⟨2025, 9, 12, 10, 0, 0, 0, none⟩
        ⟨[], [⟨str "t0", str "completed", some (str "2025-07-01T00:00:00"), none, none⟩,
          ⟨str "t1", str "completed", some (str "2025-09-01T00:00:00"), none, none⟩]⟩).task_runs) := by
  constructor
  · exact (c9_cleanup_old_runs 30 ⟨2025, 9, 12, 10, 0, 0, 0, none⟩
      ⟨[], [⟨str "t0", str "completed", some (str "2025-07-01T00:00:00"), none, none⟩,
        ⟨str "t1", str "completed", some (str "2025-09-01T00:00:00"), none, none⟩]⟩).2.2.1
      _ (by decide) ⟨2025, 9, 1, 0, 0, 0, 0, none⟩ (by decide)
      (by decide) (by decide) (by decide) (by decide) (by decide) (by decide) (by decide)
  · exact (c9_cleanup_old_runs 30 ⟨2025, 9, 12, 10, 0, 0, 0, none⟩
      ⟨[], [⟨str "t0", str "completed", some (str "2025-07-01T00:00:00"), none, none⟩,
        ⟨str "t1", str "completed", some (str "2025-09-01T00:00:00"), none, none⟩]⟩).2.2.2
      _ (by decide) ⟨2025, 7, 1, 0, 0, 0, 0, none⟩ (by decide)
      (by decide) (by decide) (by decide) (by decide) (by decide) (by decide) (by decide)
